import Mathlib

/-!
# Verification of the jpeg parsing / decoding library

This file shallowly embeds the relevant parts of the jpeg Go library
(the JPEG container parser, the scan entropy decoder and the coefficient
pipeline) and proves or refutes the specification claims about them.

The embedding follows the source files:
* `analyse.go`  -- the entropy decoder (`rlCodes`, `processECS`, `processScan`);
* `decode.go`   -- the coefficient pipeline (`dequantize`, `MakeFrameRawPicture`);
* `format.go`   -- `GetFrameInfo`;
* `segment.go` together with the `Parse` driver -- the marker state machine,
  the segment handlers and the serializers.

Go machine integers are modelled as `Nat`/`Int`, with explicit wrap-around
(`% 2 ^ w`) where the Go code can overflow.  Go `panic`s and runtime
index/division faults are modelled as distinguished `Except` errors.
-/

deriving instance DecidableEq for Except

namespace Jpeg

/-- 16-bit wrap-around for Go `uint16` arithmetic. -/
def u16 (n : Nat) : Nat := n % 65536

/-- 16-bit signed wrap-around for Go `int16` arithmetic. -/
def i16 (n : Int) : Int := (n + 32768) % 65536 - 32768

/-- Go conversion `int16(v)` of a `uint16` value. -/
def i16ofU16 (n : Nat) : Int := if n % 65536 < 32768 then (n % 65536 : Int) else (n % 65536 : Int) - 65536

/-- Big-endian serialization of a 16-bit value
(`binary.BigEndian.PutUint16` in the source). -/
def u16be (v : Nat) : List Nat := [v / 256 % 256, v % 256]

/-! ## The run-length/size code table of `analyse.go` (`rlCodes`)

The source defines `rlCodes` as one literal `[][]int` table with 4094
entries.  Elaborating thousands of negated integer literals in a single
list is prohibitively slow, so the table is transcribed here as two
`Nat`-magnitude tables holding the digits exactly as printed in
`analyse.go` -- `rlCodesNegMag` holds the magnitudes of the leading block
of negative entries of each row and `rlCodesPosMag` the trailing block of
non-negative entries -- and `rlCodes` glues each row back together,
negating the first block.  The rows below are otherwise a verbatim
transcription of the source table. -/

set_option maxHeartbeats 1000000 in
/-- Magnitudes of the negative entries of each row of `rlCodes`
(`analyse.go`), in source order. -/
def rlCodesNegMag : List (List Nat) := [
  [],
  [1],
  [3, 2],
  [7, 6, 5, 4],
  [15, 14, 13, 12, 11, 10, 9, 8],
  [31, 30, 29, 28, 27, 26, 25, 24, 23, 22, 21, 20, 19, 18, 17, 16],
  [63, 62, 61, 60, 59, 58, 57, 56, 55, 54, 53, 52, 51, 50, 49, 48,
   47, 46, 45, 44, 43, 42, 41, 40, 39, 38, 37, 36, 35, 34, 33, 32],
  [127, 126, 125, 124, 123, 122, 121, 120, 119, 118, 117, 116, 115, 114, 113, 112,
   111, 110, 109, 108, 107, 106, 105, 104, 103, 102, 101, 100, 99, 98, 97, 96,
   95, 94, 93, 92, 91, 90, 89, 88, 87, 86, 85, 84, 83, 82, 81, 80,
   79, 78, 77, 76, 75, 74, 73, 72, 71, 70, 69, 68, 67, 66, 65, 64],
  [255, 254, 253, 252, 251, 250, 249, 248, 247, 246, 245, 244, 243, 242, 241, 240,
   239, 238, 237, 236, 235, 234, 233, 232, 231, 230, 229, 228, 227, 226, 225, 224,
   223, 222, 221, 220, 219, 218, 217, 216, 215, 214, 213, 212, 211, 210, 209, 208,
   207, 206, 205, 204, 203, 202, 201, 200, 199, 198, 197, 196, 195, 194, 193, 192,
   191, 190, 189, 188, 187, 186, 185, 184, 183, 182, 181, 180, 179, 178, 177, 176,
   175, 174, 173, 172, 171, 170, 169, 168, 167, 166, 165, 164, 163, 162, 161, 160,
   159, 158, 157, 156, 155, 154, 153, 152, 151, 150, 149, 148, 147, 146, 145, 144,
   143, 142, 141, 140, 139, 138, 137, 136, 135, 134, 133, 132, 131, 130, 129, 128],
  [511, 510, 509, 508, 507, 506, 505, 504, 503, 502, 501, 500, 499, 498, 497, 496,
   495, 494, 493, 492, 491, 490, 489, 488, 487, 486, 485, 484, 483, 482, 481, 480,
   479, 478, 477, 476, 475, 474, 473, 472, 471, 470, 469, 468, 467, 466, 465, 464,
   463, 462, 461, 460, 459, 458, 457, 456, 455, 454, 453, 452, 451, 450, 449, 448,
   447, 446, 445, 444, 443, 442, 441, 440, 439, 438, 437, 436, 435, 434, 433, 432,
   431, 430, 429, 428, 427, 426, 425, 424, 423, 422, 421, 420, 419, 418, 417, 416,
   415, 414, 413, 412, 411, 410, 409, 408, 407, 406, 405, 404, 403, 402, 401, 400,
   399, 398, 397, 396, 395, 394, 393, 392, 391, 390, 389, 388, 387, 386, 385, 384,
   383, 382, 381, 380, 379, 378, 377, 376, 375, 374, 373, 372, 371, 370, 369, 368,
   367, 366, 365, 364, 363, 362, 361, 360, 359, 358, 357, 356, 355, 354, 353, 352,
   351, 350, 349, 348, 347, 346, 345, 344, 343, 342, 341, 340, 339, 338, 337, 336,
   335, 334, 333, 332, 331, 330, 329, 328, 327, 326, 325, 324, 323, 322, 321, 320,
   319, 318, 317, 316, 315, 314, 313, 312, 311, 310, 309, 308, 307, 306, 305, 304,
   303, 302, 301, 300, 299, 298, 297, 296, 295, 294, 293, 292, 291, 290, 289, 288,
   287, 286, 285, 284, 283, 282, 281, 280, 279, 278, 277, 276, 275, 274, 273, 272,
   271, 270, 269, 268, 267, 266, 265, 264, 263, 262, 261, 260, 259, 258, 257, 256],
  [1023, 1022, 1021, 1020, 1019, 1018, 1017, 1016, 1015, 1014, 1013, 1012, 1011, 1010, 1009, 1008,
   1007, 1006, 1005, 1004, 1003, 1002, 1001, 1000, 999, 998, 997, 996, 995, 994, 993, 992,
   991, 990, 989, 988, 987, 986, 985, 984, 983, 982, 981, 980, 979, 978, 977, 976,
   975, 974, 973, 972, 971, 970, 969, 968, 967, 966, 965, 964, 963, 962, 961, 960,
   959, 958, 957, 956, 955, 954, 953, 952, 951, 950, 949, 948, 947, 946, 945, 944,
   943, 942, 941, 940, 939, 938, 937, 936, 935, 934, 933, 932, 931, 930, 929, 928,
   927, 926, 925, 924, 923, 922, 921, 920, 919, 918, 917, 916, 915, 914, 913, 912,
   911, 910, 909, 908, 907, 906, 905, 904, 903, 902, 901, 900, 899, 898, 897, 896,
   895, 894, 893, 892, 891, 890, 889, 888, 887, 886, 885, 884, 883, 882, 881, 880,
   879, 878, 877, 876, 875, 874, 873, 872, 871, 870, 869, 868, 867, 866, 865, 864,
   863, 862, 861, 860, 859, 858, 857, 856, 855, 854, 853, 852, 851, 850, 849, 848,
   847, 846, 845, 844, 843, 842, 841, 840, 839, 838, 837, 836, 835, 834, 833, 832,
   831, 830, 829, 828, 827, 826, 825, 824, 823, 822, 821, 820, 819, 818, 817, 816,
   815, 814, 813, 812, 811, 810, 809, 808, 807, 806, 805, 804, 803, 802, 801, 800,
   799, 798, 797, 796, 795, 794, 793, 792, 791, 790, 789, 788, 787, 786, 785, 784,
   783, 782, 781, 780, 779, 778, 777, 776, 775, 774, 773, 772, 771, 770, 769, 768,
   767, 766, 765, 764, 763, 762, 761, 760, 759, 758, 757, 756, 755, 754, 753, 752,
   751, 750, 749, 748, 747, 746, 745, 744, 743, 742, 741, 740, 739, 738, 737, 736,
   735, 734, 733, 732, 731, 730, 729, 728, 727, 726, 725, 724, 723, 722, 721, 720,
   719, 718, 717, 716, 715, 714, 713, 712, 711, 710, 709, 708, 707, 706, 705, 704,
   703, 702, 701, 700, 699, 698, 697, 696, 695, 694, 693, 692, 691, 690, 689, 688,
   687, 686, 685, 684, 683, 682, 681, 680, 679, 678, 677, 676, 675, 674, 673, 672,
   671, 670, 669, 668, 667, 666, 665, 664, 663, 662, 661, 660, 659, 658, 657, 656,
   655, 654, 653, 652, 651, 650, 649, 648, 647, 646, 645, 644, 643, 642, 641, 640,
   639, 638, 637, 636, 635, 634, 633, 632, 631, 630, 629, 628, 627, 626, 625, 624,
   623, 622, 621, 620, 619, 618, 617, 616, 615, 614, 613, 612, 611, 610, 609, 608,
   607, 606, 605, 604, 603, 602, 601, 600, 599, 598, 597, 596, 595, 594, 593, 592,
   591, 590, 589, 588, 587, 586, 585, 584, 583, 582, 581, 580, 579, 578, 577, 576,
   575, 574, 573, 572, 571, 570, 569, 568, 567, 566, 565, 564, 563, 562, 561, 560,
   559, 558, 557, 556, 555, 554, 553, 552, 551, 550, 549, 548, 547, 546, 545, 544,
   543, 542, 541, 540, 539, 538, 537, 536, 535, 534, 533, 532, 531, 530, 529, 528,
   527, 526, 525, 524, 523, 522, 521, 520, 519, 518, 517, 516, 515, 514, 513, 512],
  [2047, 2046, 2045, 2044, 2043, 2042, 2041, 2040, 2039, 2038, 2037, 2036, 2035, 2034, 2033, 2032,
   2031, 2030, 2029, 2028, 2027, 2026, 2025, 2024, 2023, 2022, 2021, 2020, 2019, 2018, 2017, 2016,
   2015, 2014, 2013, 2012, 2011, 2010, 2009, 2008, 2007, 2006, 2005, 2004, 2003, 2002, 2001, 2000,
   1999, 1998, 1997, 1996, 1995, 1994, 1993, 1992, 1991, 1990, 1989, 1988, 1987, 1986, 1985, 1984,
   1983, 1982, 1981, 1980, 1979, 1978, 1977, 1976, 1975, 1974, 1973, 1972, 1971, 1970, 1969, 1968,
   1967, 1966, 1965, 1964, 1963, 1962, 1961, 1960, 1959, 1958, 1957, 1956, 1955, 1954, 1953, 1952,
   1951, 1950, 1949, 1948, 1947, 1946, 1945, 1944, 1943, 1942, 1941, 1940, 1939, 1938, 1937, 1936,
   1935, 1934, 1933, 1932, 1931, 1930, 1929, 1928, 1927, 1926, 1925, 1924, 1923, 1922, 1921, 1920,
   1919, 1918, 1917, 1916, 1915, 1914, 1913, 1912, 1911, 1910, 1909, 1908, 1907, 1906, 1905, 1904,
   1903, 1902, 1901, 1900, 1899, 1898, 1897, 1896, 1895, 1894, 1893, 1892, 1891, 1890, 1889, 1888,
   1887, 1886, 1885, 1884, 1883, 1882, 1881, 1880, 1879, 1878, 1877, 1876, 1875, 1874, 1873, 1872,
   1871, 1870, 1869, 1868, 1867, 1866, 1865, 1864, 1863, 1862, 1861, 1860, 1859, 1858, 1857, 1856,
   1855, 1854, 1853, 1852, 1851, 1850, 1849, 1848, 1847, 1846, 1845, 1844, 1843, 1842, 1841, 1840,
   1839, 1838, 1837, 1836, 1835, 1834, 1833, 1832, 1831, 1830, 1829, 1828, 1827, 1826, 1825, 1824,
   1823, 1822, 1821, 1820, 1819, 1818, 1817, 1816, 1815, 1814, 1813, 1812, 1811, 1810, 1809, 1808,
   1807, 1806, 1805, 1804, 1803, 1802, 1801, 1800, 1799, 1798, 1797, 1796, 1795, 1794, 1793, 1792,
   1791, 1790, 1789, 1788, 1787, 1786, 1785, 1784, 1783, 1782, 1781, 1780, 1779, 1778, 1777, 1776,
   1775, 1774, 1773, 1772, 1771, 1770, 1769, 1768, 1767, 1766, 1765, 1764, 1763, 1762, 1761, 1760,
   1759, 1758, 1757, 1756, 1755, 1754, 1753, 1752, 1751, 1750, 1749, 1748, 1747, 1746, 1745, 1744,
   1743, 1742, 1741, 1740, 1739, 1738, 1737, 1736, 1735, 1734, 1733, 1732, 1731, 1730, 1729, 1728,
   1727, 1726, 1725, 1724, 1723, 1722, 1721, 1720, 1719, 1718, 1717, 1716, 1715, 1714, 1713, 1712,
   1711, 1710, 1709, 1708, 1707, 1706, 1705, 1704, 1703, 1702, 1701, 1700, 1699, 1698, 1697, 1696,
   1695, 1694, 1693, 1692, 1691, 1690, 1689, 1688, 1687, 1686, 1685, 1684, 1683, 1682, 1681, 1680,
   1679, 1678, 1677, 1676, 1675, 1674, 1673, 1672, 1671, 1670, 1669, 1668, 1667, 1666, 1665, 1664,
   1663, 1662, 1661, 1660, 1659, 1658, 1657, 1656, 1655, 1654, 1653, 1652, 1651, 1650, 1649, 1648,
   1647, 1646, 1645, 1644, 1643, 1642, 1641, 1640, 1639, 1638, 1637, 1636, 1635, 1634, 1633, 1632,
   1631, 1630, 1629, 1628, 1627, 1626, 1625, 1624, 1623, 1622, 1621, 1620, 1619, 1618, 1617, 1616,
   1615, 1614, 1613, 1612, 1611, 1610, 1609, 1608, 1607, 1606, 1605, 1604, 1603, 1602, 1601, 1600,
   1599, 1598, 1597, 1596, 1595, 1594, 1593, 1592, 1591, 1590, 1589, 1588, 1587, 1586, 1585, 1584,
   1583, 1582, 1581, 1580, 1579, 1578, 1577, 1576, 1575, 1574, 1573, 1572, 1571, 1570, 1569, 1568,
   1567, 1566, 1565, 1564, 1563, 1562, 1561, 1560, 1559, 1558, 1557, 1556, 1555, 1554, 1553, 1552,
   1551, 1550, 1549, 1548, 1547, 1546, 1545, 1544, 1543, 1542, 1541, 1540, 1539, 1538, 1537, 1536,
   1535, 1534, 1533, 1532, 1531, 1530, 1529, 1528, 1527, 1526, 1525, 1524, 1523, 1522, 1521, 1520,
   1519, 1518, 1517, 1516, 1515, 1514, 1513, 1512, 1511, 1510, 1509, 1508, 1507, 1506, 1505, 1504,
   1503, 1502, 1501, 1500, 1499, 1498, 1497, 1496, 1495, 1494, 1493, 1492, 1491, 1490, 1489, 1488,
   1487, 1486, 1485, 1484, 1483, 1482, 1481, 1480, 1479, 1478, 1477, 1476, 1475, 1474, 1473, 1472,
   1471, 1470, 1469, 1468, 1467, 1466, 1465, 1464, 1463, 1462, 1461, 1460, 1459, 1458, 1457, 1456,
   1455, 1454, 1453, 1452, 1451, 1450, 1449, 1448, 1447, 1446, 1445, 1444, 1443, 1442, 1441, 1440,
   1439, 1438, 1437, 1436, 1435, 1434, 1433, 1432, 1431, 1430, 1429, 1428, 1427, 1426, 1425, 1424,
   1423, 1422, 1421, 1420, 1419, 1418, 1417, 1416, 1415, 1414, 1413, 1412, 1411, 1410, 1409, 1408,
   1407, 1406, 1405, 1404, 1403, 1402, 1401, 1400, 1399, 1398, 1397, 1396, 1395, 1394, 1393, 1392,
   1391, 1390, 1389, 1388, 1387, 1386, 1385, 1384, 1383, 1382, 1381, 1380, 1379, 1378, 1377, 1376,
   1375, 1374, 1373, 1372, 1371, 1370, 1369, 1368, 1367, 1366, 1365, 1364, 1363, 1362, 1361, 1360,
   1359, 1358, 1357, 1356, 1355, 1354, 1353, 1352, 1351, 1350, 1349, 1348, 1347, 1346, 1345, 1344,
   1343, 1342, 1341, 1340, 1339, 1338, 1337, 1336, 1335, 1334, 1333, 1332, 1331, 1330, 1329, 1328,
   1327, 1326, 1325, 1324, 1323, 1322, 1321, 1320, 1319, 1318, 1317, 1316, 1315, 1314, 1313, 1312,
   1311, 1310, 1309, 1308, 1307, 1306, 1305, 1304, 1303, 1302, 1301, 1300, 1299, 1298, 1297, 1296,
   1295, 1294, 1293, 1292, 1291, 1290, 1289, 1288, 1287, 1286, 1285, 1284, 1283, 1282, 1281, 1280,
   1279, 1278, 1277, 1276, 1275, 1274, 1273, 1272, 1271, 1270, 1269, 1268, 1267, 1266, 1265, 1264,
   1263, 1262, 1261, 1260, 1259, 1258, 1257, 1256, 1255, 1254, 1253, 1252, 1251, 1250, 1249, 1248,
   1247, 1246, 1245, 1244, 1243, 1242, 1241, 1240, 1239, 1238, 1237, 1236, 1235, 1234, 1233, 1232,
   1231, 1230, 1229, 1228, 1227, 1226, 1225, 1224, 1223, 1222, 1221, 1220, 1219, 1218, 1217, 1216,
   1215, 1214, 1213, 1212, 1211, 1210, 1209, 1208, 1207, 1206, 1205, 1204, 1203, 1202, 1201, 1200,
   1199, 1198, 1197, 1196, 1195, 1194, 1193, 1192, 1191, 1190, 1189, 1188, 1187, 1186, 1185, 1184,
   1183, 1182, 1181, 1180, 1179, 1178, 1177, 1176, 1175, 1174, 1173, 1172, 1171, 1170, 1169, 1168,
   1167, 1166, 1165, 1164, 1163, 1162, 1161, 1160, 1159, 1158, 1157, 1156, 1155, 1154, 1153, 1152,
   1151, 1150, 1149, 1148, 1147, 1146, 1145, 1144, 1143, 1142, 1141, 1140, 1139, 1138, 1137, 1136,
   1135, 1134, 1133, 1132, 1131, 1130, 1129, 1128, 1127, 1126, 1125, 1124, 1123, 1122, 1121, 1120,
   1119, 1118, 1117, 1116, 1115, 1114, 1113, 1112, 1111, 1110, 1109, 1108, 1107, 1106, 1105, 1104,
   1103, 1102, 1101, 1100, 1099, 1098, 1097, 1096, 1095, 1094, 1093, 1092, 1091, 1090, 1089, 1088,
   1087, 1086, 1085, 1084, 1083, 1082, 1081, 1080, 1079, 1078, 1077, 1076, 1075, 1074, 1073, 1072,
   1071, 1070, 1069, 1068, 1067, 1066, 1065, 1064, 1063, 1062, 1061, 1060, 1059, 1058, 1057, 1056,
   1055, 1054, 1053, 1052, 1051, 1050, 1049, 1048, 1047, 1046, 1045, 1044, 1043, 1042, 1041, 1040,
   1039, 1038, 1037, 1036, 1035, 1034, 1033, 1032, 1031, 1030, 1029, 1028, 1027, 1026, 1025, 1024]
]

set_option maxHeartbeats 1000000 in
/-- The non-negative entries of each row of `rlCodes` (`analyse.go`), in
source order. -/
def rlCodesPosMag : List (List Nat) := [
  [0],
  [1],
  [2, 3],
  [4, 5, 6, 7],
  [8, 9, 10, 11, 12, 13, 14, 15],
  [16, 17, 18, 19, 20, 21, 22, 23, 24, 25, 26, 27, 28, 29, 30, 31],
  [32, 33, 34, 35, 36, 37, 38, 39, 40, 41, 42, 43, 44, 45, 46, 47,
   48, 49, 50, 51, 52, 53, 54, 55, 56, 57, 58, 59, 60, 61, 62, 63],
  [64, 65, 66, 67, 68, 69, 70, 71, 72, 73, 74, 75, 76, 77, 78, 79,
   80, 81, 82, 83, 84, 85, 86, 87, 88, 89, 90, 91, 92, 93, 94, 95,
   96, 97, 98, 99, 100, 101, 102, 103, 104, 105, 106, 107, 108, 109, 110, 111,
   112, 113, 114, 115, 116, 117, 118, 119, 120, 121, 122, 123, 124, 125, 126, 127],
  [128, 129, 130, 131, 132, 133, 134, 135, 136, 137, 138, 139, 140, 141, 142, 143,
   144, 145, 146, 147, 148, 149, 150, 151, 152, 153, 154, 155, 156, 157, 158, 159,
   160, 161, 162, 163, 164, 165, 166, 167, 168, 169, 170, 171, 172, 173, 174, 175,
   176, 177, 178, 179, 180, 181, 182, 183, 184, 185, 186, 187, 188, 189, 190, 191,
   192, 193, 194, 195, 196, 197, 198, 199, 200, 201, 202, 203, 204, 205, 206, 207,
   208, 209, 210, 211, 212, 213, 214, 215, 216, 217, 218, 219, 220, 221, 222, 223,
   224, 225, 226, 227, 228, 229, 230, 231, 232, 233, 234, 235, 236, 237, 238, 239,
   240, 241, 242, 243, 244, 245, 246, 247, 248, 249, 250, 251, 252, 253, 254, 255],
  [256, 257, 258, 259, 260, 261, 262, 263, 264, 265, 266, 267, 268, 269, 270, 271,
   272, 273, 274, 275, 276, 277, 278, 279, 280, 281, 282, 283, 284, 285, 286, 287,
   288, 289, 290, 291, 292, 293, 294, 295, 296, 297, 298, 299, 300, 301, 302, 303,
   304, 305, 306, 307, 308, 309, 310, 311, 312, 313, 314, 315, 316, 317, 318, 319,
   320, 321, 322, 323, 324, 325, 326, 327, 328, 329, 330, 331, 332, 333, 334, 335,
   336, 337, 338, 339, 340, 341, 342, 343, 344, 345, 346, 347, 348, 349, 350, 351,
   352, 353, 354, 355, 356, 357, 358, 359, 360, 361, 362, 363, 364, 365, 366, 367,
   368, 369, 370, 371, 372, 373, 374, 375, 376, 377, 378, 379, 380, 381, 382, 383,
   384, 385, 386, 387, 388, 389, 390, 391, 392, 393, 394, 395, 396, 397, 398, 399,
   400, 401, 402, 403, 404, 405, 406, 407, 408, 409, 410, 411, 412, 413, 414, 415,
   416, 417, 418, 419, 420, 421, 422, 423, 424, 425, 426, 427, 428, 429, 430, 431,
   432, 433, 434, 435, 436, 437, 438, 439, 440, 441, 442, 443, 444, 445, 446, 447,
   448, 449, 450, 451, 452, 453, 454, 455, 456, 457, 458, 459, 460, 461, 462, 463,
   464, 465, 466, 467, 468, 469, 470, 471, 472, 473, 474, 475, 476, 477, 478, 479,
   480, 481, 482, 483, 484, 485, 486, 487, 488, 489, 490, 491, 492, 493, 494, 495,
   496, 497, 498, 499, 500, 501, 502, 503, 504, 505, 506, 507, 508, 509, 510, 511],
  [512, 513, 514, 515, 516, 517, 518, 519, 520, 521, 522, 523, 524, 525, 526, 527,
   528, 529, 530, 531, 532, 533, 534, 535, 536, 537, 538, 539, 540, 541, 542, 543,
   544, 545, 546, 547, 548, 549, 550, 551, 552, 553, 554, 555, 556, 557, 558, 559,
   560, 561, 562, 563, 564, 565, 566, 567, 568, 569, 570, 571, 572, 573, 574, 575,
   576, 577, 578, 579, 580, 581, 582, 583, 584, 585, 586, 587, 588, 589, 590, 591,
   592, 593, 594, 595, 596, 597, 598, 599, 600, 601, 602, 603, 604, 605, 606, 607,
   608, 609, 610, 611, 612, 613, 614, 615, 616, 617, 618, 619, 620, 621, 622, 623,
   624, 625, 626, 627, 628, 629, 630, 631, 632, 633, 634, 635, 636, 637, 638, 639,
   640, 641, 642, 643, 644, 645, 646, 647, 648, 649, 650, 651, 652, 653, 654, 655,
   656, 657, 658, 659, 660, 661, 662, 663, 664, 665, 666, 667, 668, 669, 670, 671,
   672, 673, 674, 675, 676, 677, 678, 679, 680, 681, 682, 683, 684, 685, 686, 687,
   688, 689, 690, 691, 692, 693, 694, 695, 696, 697, 698, 699, 700, 701, 702, 703,
   704, 705, 706, 707, 708, 709, 710, 711, 712, 713, 714, 715, 716, 717, 718, 719,
   720, 721, 722, 723, 724, 725, 726, 727, 728, 729, 730, 731, 732, 733, 734, 735,
   736, 737, 738, 739, 740, 741, 742, 743, 744, 745, 746, 747, 748, 749, 750, 751,
   752, 753, 754, 755, 756, 757, 758, 759, 760, 761, 762, 763, 764, 765, 766, 767,
   768, 769, 770, 771, 772, 773, 774, 775, 776, 777, 778, 779, 780, 781, 782, 783,
   784, 785, 786, 787, 788, 789, 790, 791, 792, 793, 794, 795, 796, 797, 798, 799,
   800, 801, 802, 803, 804, 805, 806, 807, 808, 809, 810, 811, 812, 813, 814, 815,
   816, 817, 818, 819, 820, 821, 822, 823, 824, 825, 826, 827, 828, 829, 830, 831,
   832, 833, 834, 835, 836, 837, 838, 839, 840, 841, 842, 843, 844, 845, 846, 847,
   848, 849, 850, 851, 852, 853, 854, 855, 856, 857, 858, 859, 860, 861, 862, 863,
   864, 865, 866, 867, 868, 869, 870, 871, 872, 873, 874, 875, 876, 877, 878, 879,
   880, 881, 882, 883, 884, 885, 886, 887, 888, 889, 890, 891, 892, 893, 894, 895,
   896, 897, 898, 899, 900, 901, 902, 903, 904, 905, 906, 907, 908, 909, 910, 911,
   912, 913, 914, 915, 916, 917, 918, 919, 920, 921, 922, 923, 924, 925, 926, 927,
   928, 929, 930, 931, 932, 933, 934, 935, 936, 937, 938, 939, 940, 941, 942, 943,
   944, 945, 946, 947, 948, 949, 950, 951, 952, 953, 954, 955, 956, 957, 958, 959,
   960, 961, 962, 963, 964, 965, 966, 967, 968, 969, 970, 971, 972, 973, 974, 975,
   976, 977, 978, 979, 980, 981, 982, 983, 984, 985, 986, 987, 988, 989, 990, 991,
   992, 993, 994, 995, 996, 997, 998, 999, 1000, 1001, 1002, 1003, 1004, 1005, 1006, 1007,
   1008, 1009, 1010, 1011, 1012, 1013, 1014, 1015, 1016, 1017, 1018, 1019, 1020, 1021, 1022, 1023],
  [1024, 1025, 1026, 1027, 1028, 1029, 1030, 1031, 1032, 1033, 1034, 1035, 1036, 1037, 1038, 1039,
   1040, 1041, 1042, 1043, 1044, 1045, 1046, 1047, 1048, 1049, 1050, 1051, 1052, 1053, 1054, 1055,
   1056, 1057, 1058, 1059, 1060, 1061, 1062, 1063, 1064, 1065, 1066, 1067, 1068, 1069, 1070, 1071,
   1072, 1073, 1074, 1075, 1076, 1077, 1078, 1079, 1080, 1081, 1082, 1083, 1084, 1085, 1086, 1087,
   1088, 1089, 1090, 1091, 1092, 1093, 1094, 1095, 1096, 1097, 1098, 1099, 1100, 1101, 1102, 1103,
   1104, 1105, 1106, 1107, 1108, 1109, 1110, 1111, 1112, 1113, 1114, 1115, 1116, 1117, 1118, 1119,
   1120, 1121, 1122, 1123, 1124, 1125, 1126, 1127, 1128, 1129, 1130, 1131, 1132, 1133, 1134, 1135,
   1136, 1137, 1138, 1139, 1140, 1141, 1142, 1143, 1144, 1145, 1146, 1147, 1148, 1149, 1150, 1151,
   1152, 1153, 1154, 1155, 1156, 1157, 1158, 1159, 1160, 1161, 1162, 1163, 1164, 1165, 1166, 1167,
   1168, 1169, 1170, 1171, 1172, 1173, 1174, 1175, 1176, 1177, 1178, 1179, 1180, 1181, 1182, 1183,
   1184, 1185, 1186, 1187, 1188, 1189, 1190, 1191, 1192, 1193, 1194, 1195, 1196, 1197, 1198, 1199,
   1200, 1201, 1202, 1203, 1204, 1205, 1206, 1207, 1208, 1209, 1210, 1211, 1212, 1213, 1214, 1215,
   1216, 1217, 1218, 1219, 1220, 1221, 1222, 1223, 1224, 1225, 1226, 1227, 1228, 1229, 1230, 1231,
   1232, 1233, 1234, 1235, 1236, 1237, 1238, 1239, 1240, 1241, 1242, 1243, 1244, 1245, 1246, 1247,
   1248, 1249, 1250, 1251, 1252, 1253, 1254, 1255, 1256, 1257, 1258, 1259, 1260, 1261, 1262, 1263,
   1264, 1265, 1266, 1267, 1268, 1269, 1270, 1271, 1272, 1273, 1274, 1275, 1276, 1277, 1278, 1279,
   1280, 1281, 1282, 1283, 1284, 1285, 1286, 1287, 1288, 1289, 1290, 1291, 1292, 1293, 1294, 1295,
   1296, 1297, 1298, 1299, 1300, 1301, 1302, 1303, 1304, 1305, 1306, 1307, 1308, 1309, 1310, 1311,
   1312, 1313, 1314, 1315, 1316, 1317, 1318, 1319, 1320, 1321, 1322, 1323, 1324, 1325, 1326, 1327,
   1328, 1329, 1330, 1331, 1332, 1333, 1334, 1335, 1336, 1337, 1338, 1339, 1340, 1341, 1342, 1343,
   1344, 1345, 1346, 1347, 1348, 1349, 1350, 1351, 1352, 1353, 1354, 1355, 1356, 1357, 1358, 1359,
   1360, 1361, 1362, 1363, 1364, 1365, 1366, 1367, 1368, 1369, 1370, 1371, 1372, 1373, 1374, 1375,
   1376, 1377, 1378, 1379, 1380, 1381, 1382, 1383, 1384, 1385, 1386, 1387, 1388, 1389, 1390, 1391,
   1392, 1393, 1394, 1395, 1396, 1397, 1398, 1399, 1400, 1401, 1402, 1403, 1404, 1405, 1406, 1407,
   1408, 1409, 1410, 1411, 1412, 1413, 1414, 1415, 1416, 1417, 1418, 1419, 1420, 1421, 1422, 1423,
   1424, 1425, 1426, 1427, 1428, 1429, 1430, 1431, 1432, 1433, 1434, 1435, 1436, 1437, 1438, 1439,
   1440, 1441, 1442, 1443, 1444, 1445, 1446, 1447, 1448, 1449, 1450, 1451, 1452, 1453, 1454, 1455,
   1456, 1457, 1458, 1459, 1460, 1461, 1462, 1463, 1464, 1465, 1466, 1467, 1468, 1469, 1470, 1471,
   1472, 1473, 1474, 1475, 1476, 1477, 1478, 1479, 1480, 1481, 1482, 1483, 1484, 1485, 1486, 1487,
   1488, 1489, 1490, 1491, 1492, 1493, 1494, 1495, 1496, 1497, 1498, 1499, 1500, 1501, 1502, 1503,
   1504, 1505, 1506, 1507, 1508, 1509, 1510, 1511, 1512, 1513, 1514, 1515, 1516, 1517, 1518, 1519,
   1520, 1521, 1522, 1523, 1524, 1525, 1526, 1527, 1528, 1529, 1530, 1531, 1532, 1533, 1534, 1535,
   1536, 1537, 1538, 1539, 1540, 1541, 1542, 1543, 1544, 1545, 1546, 1547, 1548, 1549, 1550, 1551,
   1552, 1553, 1554, 1555, 1556, 1557, 1558, 1559, 1560, 1561, 1562, 1563, 1564, 1565, 1566, 1567,
   1568, 1569, 1570, 1571, 1572, 1573, 1574, 1575, 1576, 1577, 1578, 1579, 1580, 1581, 1582, 1583,
   1584, 1585, 1586, 1587, 1588, 1589, 1590, 1591, 1592, 1593, 1594, 1595, 1596, 1597, 1598, 1599,
   1600, 1601, 1602, 1603, 1604, 1605, 1606, 1607, 1608, 1609, 1610, 1611, 1612, 1613, 1614, 1615,
   1616, 1617, 1618, 1619, 1620, 1621, 1622, 1623, 1624, 1625, 1626, 1627, 1628, 1629, 1630, 1631,
   1632, 1633, 1634, 1635, 1636, 1637, 1638, 1639, 1640, 1641, 1642, 1643, 1644, 1645, 1646, 1647,
   1648, 1649, 1650, 1651, 1652, 1653, 1654, 1655, 1656, 1657, 1658, 1659, 1660, 1661, 1662, 1663,
   1664, 1665, 1666, 1667, 1668, 1669, 1670, 1671, 1672, 1673, 1674, 1675, 1676, 1677, 1678, 1679,
   1680, 1681, 1682, 1683, 1684, 1685, 1686, 1687, 1688, 1689, 1690, 1691, 1692, 1693, 1694, 1695,
   1696, 1697, 1698, 1699, 1700, 1701, 1702, 1703, 1704, 1705, 1706, 1707, 1708, 1709, 1710, 1711,
   1712, 1713, 1714, 1715, 1716, 1717, 1718, 1719, 1720, 1721, 1722, 1723, 1724, 1725, 1726, 1727,
   1728, 1729, 1730, 1731, 1732, 1733, 1734, 1735, 1736, 1737, 1738, 1739, 1740, 1741, 1742, 1743,
   1744, 1745, 1746, 1747, 1748, 1749, 1750, 1751, 1752, 1753, 1754, 1755, 1756, 1757, 1758, 1759,
   1760, 1761, 1762, 1763, 1764, 1765, 1766, 1767, 1768, 1769, 1770, 1771, 1772, 1773, 1774, 1775,
   1776, 1777, 1778, 1779, 1780, 1781, 1782, 1783, 1784, 1785, 1786, 1787, 1788, 1789, 1790, 1791,
   1792, 1793, 1794, 1795, 1796, 1797, 1798, 1799, 1800, 1801, 1802, 1803, 1804, 1805, 1806, 1807,
   1808, 1809, 1810, 1811, 1812, 1813, 1814, 1815, 1816, 1817, 1818, 1819, 1820, 1821, 1822, 1823,
   1824, 1825, 1826, 1827, 1828, 1829, 1830, 1831, 1832, 1833, 1834, 1835, 1836, 1837, 1838, 1839,
   1840, 1841, 1842, 1843, 1844, 1845, 1846, 1847, 1848, 1849, 1850, 1851, 1852, 1853, 1854, 1855,
   1856, 1857, 1858, 1859, 1860, 1861, 1862, 1863, 1864, 1865, 1866, 1867, 1868, 1869, 1870, 1871,
   1872, 1873, 1874, 1875, 1876, 1877, 1878, 1879, 1880, 1881, 1882, 1883, 1884, 1885, 1886, 1887,
   1888, 1889, 1890, 1891, 1892, 1893, 1894, 1895, 1896, 1897, 1898, 1899, 1900, 1901, 1902, 1903,
   1904, 1905, 1906, 1907, 1908, 1909, 1910, 1911, 1912, 1913, 1914, 1915, 1916, 1917, 1918, 1919,
   1920, 1921, 1922, 1923, 1924, 1925, 1926, 1927, 1928, 1929, 1930, 1931, 1932, 1933, 1934, 1935,
   1936, 1937, 1938, 1939, 1940, 1941, 1942, 1943, 1944, 1945, 1946, 1947, 1948, 1949, 1950, 1951,
   1952, 1953, 1954, 1955, 1956, 1957, 1958, 1959, 1960, 1961, 1962, 1963, 1964, 1965, 1966, 1967,
   1968, 1969, 1970, 1971, 1972, 1973, 1974, 1975, 1976, 1977, 1978, 1979, 1980, 1981, 1982, 1983,
   1984, 1985, 1986, 1987, 1988, 1989, 1990, 1991, 1992, 1993, 1994, 1995, 1996, 1997, 1998, 1999,
   2000, 2001, 2002, 2003, 2004, 2005, 2006, 2007, 2008, 2009, 2010, 2011, 2012, 2013, 2014, 2015,
   2016, 2017, 2018, 2019, 2020, 2021, 2022, 2023, 2024, 2025, 2026, 2027, 2028, 2029, 2030, 2031,
   2032, 2033, 2034, 2035, 2036, 2037, 2038, 2039, 2040, 2041, 2042, 2043, 2044, 2045, 2046, 2047]
]

/-- The decode table `rlCodes` of `analyse.go`: entry `rlCodes[size][code]`
is the signed sample value decoded from a `size`-bit unsigned `code`. -/
def rlCodes : List (List Int) :=
  (rlCodesNegMag.zip rlCodesPosMag).map fun np =>
    np.1.map (fun a : Nat => -(a : Int)) ++ np.2.map (fun a : Nat => (a : Int))

/-- The decoding rule claimed by the specification: a `size`-bit unsigned
value `v` decodes to `v` when its top bit is set (`2 ^ size ≤ 2 * v`) and
to `v - (2 ^ size - 1)` otherwise. -/
def dcExtendSpec (size v : Nat) : Int :=
  if 2 ^ size ≤ 2 * v then (v : Int) else (v : Int) - (2 ^ size - 1)

/-- The table generated by the spec rule, for comparison with `rlCodes`. -/
def rlCodesSpec : List (List Int) :=
  (List.range 12).map fun s => (List.range (2 ^ s)).map (dcExtendSpec s)

set_option maxRecDepth 40000 in
theorem rlCodes_take_11 : rlCodes.take 11 = rlCodesSpec.take 11 := by decide

set_option maxRecDepth 40000 in
theorem rlCodes_row11_lo :
    (rlCodes.getD 11 []).take 1024 = (rlCodesSpec.getD 11 []).take 1024 := by decide

set_option maxRecDepth 40000 in
theorem rlCodes_row11_hi :
    (rlCodes.getD 11 []).drop 1024 = (rlCodesSpec.getD 11 []).drop 1024 := by decide

theorem rlCodes_row_eq :
    ∀ s, s < 12 → rlCodes.getD s [] = (List.range (2 ^ s)).map (dcExtendSpec s) := by
  have hspec : ∀ s, s < 12 →
      rlCodesSpec.getD s [] = (List.range (2 ^ s)).map (dcExtendSpec s) := by
    intro s hs
    rw [List.getD_eq_getElem?_getD]
    unfold rlCodesSpec
    rw [List.getElem?_map, List.getElem?_range hs]
    rfl
  intro s hs
  rcases Nat.lt_or_ge s 11 with h | h
  · have h1 : rlCodes.getD s [] = rlCodesSpec.getD s [] := by
      rw [List.getD_eq_getElem?_getD, List.getD_eq_getElem?_getD,
          ← List.getElem?_take_of_lt (l := rlCodes) (n := 11) h,
          ← List.getElem?_take_of_lt (l := rlCodesSpec) (n := 11) h,
          rlCodes_take_11]
    rw [h1, hspec s hs]
  · have hs11 : s = 11 := by omega
    subst hs11
    have h11 : rlCodes.getD 11 [] = rlCodesSpec.getD 11 [] := by
      rw [← List.take_append_drop 1024 (rlCodes.getD 11 []),
          rlCodes_row11_lo, rlCodes_row11_hi, List.take_append_drop]
    rw [h11, hspec 11 hs]

/-- The DC branch of `processECS` (`analyse.go`, the `sComp.count == 0`
case): checks the size, decodes the difference through `rlCodes`, adds it
to the running predictor and stores the new predictor value in the first
slot of the current data unit. -/
def processECSdc (previousDC : Int) (dUnit : List Int) (size code : Nat) :
    Except String (Int × List Int) :=
  if size > 11 then .error "processECS: DC coef size > 11 bits"
  else
    let decodedDC := (rlCodes.getD size []).getD code 0
    let newDC := previousDC + decodedDC
    .ok (newDC, dUnit.set 0 newDC)

/-- C3: for a DC size `s ≤ 11` and an `s`-bit code `v`, the `rlCodes`
lookup realizes exactly the spec's decoding rule, and the DC branch of
`processECS` adds the decoded difference to the running predictor and
stores the new predictor value in zig-zag slot 0 of the data unit. -/
theorem claim_C3_dc_decode (s : Nat) (hs : s ≤ 11) (v : Nat) (hv : v < 2 ^ s) :
    (rlCodes.getD s []).getD v 0 = dcExtendSpec s v ∧
    ∀ prev du, processECSdc prev du s v =
      .ok (prev + dcExtendSpec s v, du.set 0 (prev + dcExtendSpec s v)) := by
  have hrow := rlCodes_row_eq s (by omega)
  have hval : (rlCodes.getD s []).getD v 0 = dcExtendSpec s v := by
    rw [hrow, List.getD_eq_getElem?_getD, List.getElem?_map, List.getElem?_range hv]
    rfl
  refine ⟨hval, fun prev du => ?_⟩
  unfold processECSdc
  rw [if_neg (by omega)]
  simp only [hval]

theorem claim_C3_dc_decode_witness :
    (rlCodes.getD 2 []).getD 1 0 = dcExtendSpec 2 1 ∧
    processECSdc 5 [7, 7] 2 1 =
      .ok (5 + dcExtendSpec 2 1, [7, 7].set 0 (5 + dcExtendSpec 2 1)) :=
  ⟨(claim_C3_dc_decode 2 (by decide) 1 (by decide)).1,
   (claim_C3_dc_decode 2 (by decide) 1 (by decide)).2 5 [7, 7]⟩

/-! ## The AC branch of `processECS` (`analyse.go`) -/

/-- Result of processing one AC (run, size) symbol: the list of stores
into the 64-entry data unit, in order, and the new zig-zag cursor
(`sComp.count`).  The Go code performs the stores directly on the
`*[64]int` array, so a store at index 64 is a runtime fault there. -/
structure AcResult where
  writes : List (Nat × Int)
  count : Nat
deriving DecidableEq

/-- The AC branch of `processECS` (`analyse.go`, the `sComp.count != 0`
case): EOB zero-fills the rest of the unit, ZRL writes 16 zeros after an
overrun check `count+16 > 64`, and otherwise after the size check the
code writes `runLen` zeros -- guarded only by `count+runLen > 64` -- and
then stores the decoded coefficient at index `count+runLen`. -/
def processECSac (count runLen size code : Nat) : Except String AcResult :=
  if runLen = 0 ∧ size = 0 then
    .ok ⟨(List.range (64 - count)).map fun n => (count + n, (0 : Int)), 64⟩
  else if runLen = 15 ∧ size = 0 then
    if count + 16 > 64 then .error "processECS: ZRL over the end of data uint"
    else .ok ⟨(List.range 16).map fun n => (count + n, (0 : Int)), count + 16⟩
  else
    if size < 1 ∨ size > 10 then
      .error "processECS: AC coef size not in [1-10] bits"
    else
      let decodedAC := (rlCodes.getD size []).getD code 0
      if count + runLen > 64 then
        .error "processECS: Runlength over the end of data uint"
      else
        .ok ⟨((List.range runLen).map fun n => (count + n, (0 : Int))) ++
               [(count + runLen, decodedAC)], count + runLen + 1⟩

/-- C4: with the zig-zag cursor at 63, the AC symbol (run 1, size 1,
code 1) passes the `count+runLen > 64` guard (63+1 = 64 is not > 64), so
no Overrun error is reported and the decoded coefficient is stored at
index 64 of the 64-entry data unit -- an out-of-bounds store (a Go
runtime index-out-of-range fault), refuting the in-bounds claim. -/
theorem claim_C4_ac_store_out_of_bounds :
    processECSac 63 1 1 1 = .ok ⟨[(63, 0), (64, 1)], 65⟩ ∧
    ¬ ∀ w ∈ [((63 : Nat), (0 : Int)), (64, 1)], w.1 < 64 := by decide

/-! ## The per-ECS reset of `processECS` (`analyse.go`) -/

/-- The mutable per-scan-component state reset at the start of every
`processECS` call (`analyse.go`); `nRows`, the sampling factors and the
row width are not touched by the reset. -/
structure ScanCompState where
  previousDC : Int
  dUAnchor : Nat
  dUCol : Nat
  dURow : Nat
  count : Nat
  nRows : Nat
  hSF : Nat
  vSF : Nat
  nUnitsRow : Nat
deriving DecidableEq

/-- The reset loop at the start of `processECS` (`analyse.go`): for every
scan component `previousDC`, `dUAnchor`, `dUCol`, `dURow` and `count` are
all set to zero.  `processScan` calls `processECS` once per entropy run,
i.e. at the start of the scan and again after every restart marker. -/
def processECSReset (sComps : List ScanCompState) : List ScanCompState :=
  sComps.map fun c =>
    { c with previousDC := 0, dUAnchor := 0, dUCol := 0, dURow := 0, count := 0 }

/-- C5 counterexample: after a restart marker the decoder does not
continue the MCU geometry from where it left off -- the data-unit anchor,
row, column and sample count are zeroed along with the DC predictor. -/
theorem claim_C5_counterexample :
    processECSReset [⟨7, 2, 1, 1, 5, 3, 2, 2, 4⟩] = [⟨0, 0, 0, 0, 0, 3, 2, 2, 4⟩] ∧
    (⟨7, 2, 1, 1, 5, 3, 2, 2, 4⟩ : ScanCompState).dUAnchor ≠ 0 := by decide

/-- C5 (amended): at every `processECS` invocation -- at the start of the
scan and after every restart marker -- each scan component's DC predictor
and its data-unit anchor, row, column and in-unit sample count are all
reset to zero; only `nRows`, the sampling factors and the row width are
carried over. -/
theorem claim_C5_reset_all_fields (sComps : List ScanCompState) :
    (∀ c ∈ processECSReset sComps,
      c.previousDC = 0 ∧ c.dUAnchor = 0 ∧ c.dUCol = 0 ∧ c.dURow = 0 ∧ c.count = 0) ∧
    (processECSReset sComps).map (fun c => (c.nRows, c.hSF, c.vSF, c.nUnitsRow)) =
      sComps.map fun c => (c.nRows, c.hSF, c.vSF, c.nUnitsRow) := by
  constructor
  · intro c hc
    simp only [processECSReset, List.mem_map] at hc
    obtain ⟨c0, _, rfl⟩ := hc
    exact ⟨rfl, rfl, rfl, rfl, rfl⟩
  · simp [processECSReset]

theorem claim_C5_reset_all_fields_witness :
    (processECSReset [⟨7, 2, 1, 1, 5, 3, 2, 2, 4⟩]).map
        (fun c => (c.nRows, c.hSF, c.vSF, c.nUnitsRow)) =
      [(⟨7, 2, 1, 1, 5, 3, 2, 2, 4⟩ : ScanCompState)].map
        (fun c => (c.nRows, c.hSF, c.vSF, c.nUnitsRow)) :=
  (claim_C5_reset_all_fields [⟨7, 2, 1, 1, 5, 3, 2, 2, 4⟩]).2

/-! ## The byte-stuffing step of `processECS` (`analyse.go`) -/

/-- Outcome of loading one encoded byte: either `curByte` is available for
bit extraction and the loop resumes at `nextI`, or the scan terminates
with the offset left at `stopI`. -/
inductive ECSByteStep where
  | data (curByte nextI : Nat)
  | terminate (stopI : Nat)
deriving DecidableEq

/-- The byte-fetch step at the top of `processECS`'s encoded loop
(`analyse.go`): load `data[i]`; on `0xFF` inspect the following byte:
`0x00` is swallowed and the `0xFF` becomes a literal data byte, while any
other value -- or reaching the end of the buffer -- backs `i` up and
terminates the scan at the `0xFF`. -/
def processECSByteStep (data : List Nat) (i : Nat) : ECSByteStep :=
  let tLen := data.length
  let curByte := data.getD i 0
  if curByte = 255 then
    if i + 1 ≥ tLen - 1 ∨ data.getD (i + 1) 0 ≠ 0 then .terminate i
    else .data 255 (i + 2)
  else .data curByte (i + 1)

/-- C8 counterexample: a `0xFF` byte followed by another `0xFF` is not
treated as a fill byte --- the scan terminates at that point instead of
consuming one `0xFF` and repeating the lookahead. -/
theorem claim_C8_counterexample :
    processECSByteStep [255, 255, 0, 0, 0] 0 = .terminate 0 ∧
    ∀ j, processECSByteStep [255, 255, 0, 0, 0] 0 ≠ .data 255 j := by
  refine ⟨by decide, fun j h => ?_⟩
  rw [show processECSByteStep [255, 255, 0, 0, 0] 0 = .terminate 0 by decide] at h
  exact ECSByteStep.noConfusion h

/-- C8 (amended): inside an ECS, `0xFF 0x00` yields a literal `0xFF` data
byte with the `0x00` swallowed; `0xFF` followed by any non-zero byte --
marker bytes and further `0xFF` fill bytes alike -- or `0xFF` with no
complete lookahead terminates the scan at that `0xFF`; any other byte is
plain data. -/
theorem claim_C8_ff_handling (data : List Nat) (i : Nat) :
    (data.getD i 0 = 255 → i + 1 < data.length - 1 → data.getD (i + 1) 0 = 0 →
      processECSByteStep data i = .data 255 (i + 2)) ∧
    (data.getD i 0 = 255 → (i + 1 ≥ data.length - 1 ∨ data.getD (i + 1) 0 ≠ 0) →
      processECSByteStep data i = .terminate i) ∧
    (data.getD i 0 ≠ 255 → processECSByteStep data i = .data (data.getD i 0) (i + 1)) := by
  unfold processECSByteStep
  refine ⟨fun h1 h2 h3 => ?_, fun h1 h2 => ?_, fun h1 => ?_⟩
  · rw [if_pos h1, if_neg (by omega)]
  · rw [if_pos h1, if_pos h2]
  · rw [if_neg h1]

theorem claim_C8_ff_handling_witness :
    processECSByteStep [255, 255, 0, 0, 0] 0 = .terminate 0 :=
  (claim_C8_ff_handling [255, 255, 0, 0, 0] 0).2.1 (by decide) (by decide)

/-! ## Zig-zag and dequantization (`decode.go`) -/

/-- The fixed zig-zag table `zigZagRowCol` mapping natural (row, col) to
the serialized zig-zag position (the `Desc` generation and `analyse.go`
define the same literal). -/
def zigZagRowCol : List (List Nat) :=
  [[ 0,  1,  5,  6, 14, 15, 27, 28],
   [ 2,  4,  7, 13, 16, 26, 29, 42],
   [ 3,  8, 12, 17, 25, 30, 41, 43],
   [ 9, 11, 18, 24, 31, 40, 44, 53],
   [10, 19, 23, 32, 39, 45, 52, 54],
   [20, 22, 33, 38, 46, 51, 55, 60],
   [21, 34, 37, 47, 50, 56, 59, 61],
   [35, 36, 48, 49, 57, 58, 62, 63]]

/-- One data unit of `dequantize` (`decode.go`): the temporary `uZZdu`
computed in a single pass `i = 0..63` over rows `r = i / 8` and columns
`c = i % 8`, with `uZZdu[i] = du[zigZagRowCol[r][c]] * int16(q[zigZagRowCol[r][c]])`
in Go `int16` arithmetic, which then replaces the data unit. -/
def dequantizeDU (du : List Int) (q : List Nat) : List Int :=
  (List.range 64).map fun i =>
    let j := (zigZagRowCol.getD (i / 8) []).getD (i % 8) 0
    i16 (du.getD j 0 * i16ofU16 (q.getD j 0))

/-- C6: dequantization produces the natural-order block with
`B[r][c] = du[zigzag[r][c]] * q[zigzag[r][c]]` for all `r, c < 8` (at Go
`int16` precision), the zig-zag inverse and the multiplication being the
same single pass over the 64 entries. -/
theorem claim_C6_dequantize (du : List Int) (q : List Nat) (r c : Nat)
    (hr : r < 8) (hc : c < 8) :
    (dequantizeDU du q).getD (r * 8 + c) 0 =
      i16 (du.getD ((zigZagRowCol.getD r []).getD c 0) 0 *
           i16ofU16 (q.getD ((zigZagRowCol.getD r []).getD c 0) 0)) := by
  have hlt : r * 8 + c < 64 := by omega
  unfold dequantizeDU
  rw [List.getD_eq_getElem?_getD, List.getElem?_map, List.getElem?_range hlt]
  have h1 : (r * 8 + c) / 8 = r := by omega
  have h2 : (r * 8 + c) % 8 = c := by omega
  simp [h1, h2]

theorem claim_C6_dequantize_witness :
    (dequantizeDU (1 :: List.replicate 63 2) (List.replicate 64 3)).getD (0 * 8 + 1) 0 =
      i16 ((1 :: List.replicate 63 2 : List Int).getD
            ((zigZagRowCol.getD 0 []).getD 1 0) 0 *
           i16ofU16 ((List.replicate 64 3 : List Nat).getD
            ((zigZagRowCol.getD 0 []).getD 1 0) 0)) :=
  claim_C6_dequantize (1 :: List.replicate 63 2) (List.replicate 64 3) 0 1
    (by decide) (by decide)

/-! ## `MakeFrameRawPicture` and the in-place `dequantize` (`decode.go`) -/

/-- The decode-side view of a quantization table (`qdef`): its size and
its 64 values in zig-zag order. -/
structure QDefD where
  size : Nat
  values : List Nat
deriving DecidableEq, Inhabited

/-- The decode-side view of a frame component (`component`): its
quantization selector and its coefficient grid `iDCTdata` (rows of
64-entry data units). -/
structure DecComponent where
  QS : Nat
  iDCTdata : List (List (List Int))
deriving DecidableEq, Inhabited

/-- The decode-side view of a frame: the fields `MakeFrameRawPicture` and
`dequantize` read (`samplePrecision`, the number of scans, the
components). -/
structure DecFrame where
  samplePrecision : Nat
  nScans : Nat
  components : List DecComponent
deriving DecidableEq, Inhabited

/-- `dequantize` (`decode.go`): for each component of the frame, after the
`QS > 3` range check, every data unit of the grid is replaced in place by
its dequantized, un-zig-zagged block (`du[i] = uZZdu[i]`).  The returned
component list is the grid state after the call. -/
def dequantizeComponents (qdefs : List QDefD) : List DecComponent → Except String (List DecComponent)
  | [] => .ok []
  | cmp :: rest =>
    if cmp.QS > 3 then .error "dequantize: table out of range"
    else do
      let rest' ← dequantizeComponents qdefs rest
      .ok ({ cmp with iDCTdata := cmp.iDCTdata.map fun row =>
               row.map fun du => dequantizeDU du (qdefs.getD cmp.QS default).values } :: rest')

/-- `MakeFrameRawPicture` (`decode.go`), modelled as its effect on the
model state: after the frame-index and scan-availability checks it calls
`dequantize`, which rewrites the selected frame's coefficient grids in
place, and then (for 8-bit precision) builds the sample arrays from the
mutated grids.  The returned frame list is the state of `jpg.frames`
after the call; the pixel output itself goes through the `float64`
`inverseDCT8` and is not modelled. -/
def MakeFrameRawPictureGrids (qdefs : List QDefD) (frames : List DecFrame)
    (frame : Int) : Except String (List DecFrame) :=
  if frame ≥ (frames.length : Int) ∨ frame < 0 then
    .error "MakeFrameRawPicture: frame is absent"
  else
    if (frames.getD frame.toNat default).nScans < 1 then
      .error "SaveRawPicture: no scan available for picture"
    else do
      let comps' ← dequantizeComponents qdefs (frames.getD frame.toNat default).components
      if (frames.getD frame.toNat default).samplePrecision = 8 then
        .ok (frames.set frame.toNat
              { frames.getD frame.toNat default with components := comps' })
      else .error "MakeFrameRawPicture: extended precision is not supported"

/-- Concrete quantization tables for the C10 counterexample. -/
def c10Q : List QDefD :=
  [⟨8, List.replicate 64 2⟩, ⟨0, []⟩, ⟨0, []⟩, ⟨0, []⟩]

/-- Concrete one-frame model state for the C10 counterexample: one
component, one data unit with a non-zero coefficient. -/
def c10Frames : List DecFrame :=
  [⟨8, 1, [⟨0, [[(1 : Int) :: List.replicate 63 0]]⟩]⟩]

def c10After1 : List DecFrame :=
  (MakeFrameRawPictureGrids c10Q c10Frames 0).toOption.getD []

def c10After2 : List DecFrame :=
  (MakeFrameRawPictureGrids c10Q c10After1 0).toOption.getD []

/-- C10 counterexample: `MakeFrameRawPicture` does mutate the parsed
model's coefficient grids -- `dequantize` multiplies and un-zig-zags the
data units in place -- so the frame state after the call differs from the
state before it, and a second call starts from (and again changes) the
already-dequantized grids. -/
theorem claim_C10_counterexample :
    MakeFrameRawPictureGrids c10Q c10Frames 0 = .ok c10After1 ∧
    MakeFrameRawPictureGrids c10Q c10After1 0 = .ok c10After2 ∧
    c10After1 ≠ c10Frames ∧ c10After2 ≠ c10After1 := by decide

/-- C10 (amended): a successful `MakeFrameRawPicture` call replaces the
selected frame's component grids by their dequantized images and leaves
everything else in the frame list unchanged; successive calls therefore
operate on progressively transformed grids rather than returning equal
results. -/
theorem claim_C10_dequantize_in_place (qdefs : List QDefD) (frames : List DecFrame)
    (f : Int) (out : List DecFrame)
    (h : MakeFrameRawPictureGrids qdefs frames f = .ok out) :
    ∃ comps', dequantizeComponents qdefs (frames.getD f.toNat default).components = .ok comps' ∧
      out = frames.set f.toNat
        { frames.getD f.toNat default with components := comps' } := by
  unfold MakeFrameRawPictureGrids at h
  by_cases h1 : f ≥ (frames.length : Int) ∨ f < 0
  · rw [if_pos h1] at h; exact Except.noConfusion h
  · rw [if_neg h1] at h
    by_cases h2 : (frames.getD f.toNat default).nScans < 1
    · rw [if_pos h2] at h; exact Except.noConfusion h
    · rw [if_neg h2] at h
      cases h3 : dequantizeComponents qdefs (frames.getD f.toNat default).components with
      | error e =>
        rw [h3] at h
        simp only [Bind.bind, Except.bind] at h
        exact Except.noConfusion h
      | ok comps' =>
        rw [h3] at h
        simp only [Bind.bind, Except.bind] at h
        by_cases h4 : (frames.getD f.toNat default).samplePrecision = 8
        · rw [if_pos h4] at h
          exact ⟨comps', rfl, ((Except.ok.injEq _ _).mp h).symm⟩
        · rw [if_neg h4] at h
          exact Except.noConfusion h

theorem claim_C10_dequantize_in_place_witness :
    ∃ comps', dequantizeComponents c10Q (c10Frames.getD (0 : Int).toNat default).components = .ok comps' ∧
      c10After1 = c10Frames.set (0 : Int).toNat
        { c10Frames.getD (0 : Int).toNat default with components := comps' } :=
  claim_C10_dequantize_in_place c10Q c10Frames 0 c10After1 (by decide)

/-! ## The `Desc`-generation data model (`Parse` driver and `segment.go`) -/

/-- Go byte truncation (`byte(v)`). -/
def u8 (n : Nat) : Nat := n % 256

/-- Error channel of the parse model: `goErr` models an `error` returned
by the source, `goPanic` models a Go `panic` or runtime fault (index out
of range, nil dereference, division by zero), which aborts `Parse`. -/
inductive PErr where
  | goErr (msg : String)
  | goPanic (msg : String)
deriving DecidableEq

/-- Read one byte `data[i]`; out of range is a Go runtime fault. -/
def rd (d : List Nat) (i : Nat) : Except PErr Nat :=
  if i < d.length then .ok (d.getD i 0) else .error (.goPanic "index out of range")

/-- Read a big-endian 16-bit value `uint16(data[i])<<8 + uint16(data[i+1])`. -/
def rd16 (d : List Nat) (i : Nat) : Except PErr Nat := do
  let hi ← rd d i
  let lo ← rd d (i + 1)
  .ok (hi * 256 + lo)

/-- The byte span `data[a:b]` of the input. -/
def extract (d : List Nat) (a b : Nat) : List Nat := (d.take b).drop a

/-- The Go slice `data[i:j]`; bounds beyond the buffer are a runtime fault. -/
def rdSlice (d : List Nat) (i j : Nat) : Except PErr (List Nat) :=
  if i ≤ j ∧ j ≤ d.length then .ok (extract d i j)
  else .error (.goPanic "slice bounds out of range")

/-- A frame component (`component` / `Component` of the `Desc` generation):
the four parsed fields plus the derived grid geometry (`nUnitsRow`, and
the allocated number of unit rows `len(iDCTdata)` as `nUnitsCol`). -/
structure MComponent where
  Id : Nat
  HSF : Nat
  VSF : Nat
  QS : Nat
  nUnitsRow : Nat
  nUnitsCol : Nat
deriving DecidableEq, Inhabited

/-- The `sampling` record of a frame. -/
structure MSampling where
  nLines : Nat
  nSamplesLine : Nat
  dnlLines : Nat
  scanLines : Nat
  samplePrecision : Nat
  mhSF : Nat
  mvSF : Nat
deriving DecidableEq, Inhabited

/-- A scan component (`scanComp` of `segment.go`): the fields `setScan`
derives that `scan.serialize` and the decoder use (the Huffman root
pointers `hDC`/`hAC` are lookups into `jpg.hdefs` and are not stored). -/
structure MScanComp where
  cType : Nat
  cId : Nat
  dcId : Nat
  acId : Nat
  hSF : Nat
  vSF : Nat
  nUnitsRow : Nat
deriving DecidableEq, Inhabited

/-- A scan (`scan` of the `Desc` generation). -/
structure MScan where
  ecss : List Nat
  nMcus : Nat
  rstInterval : Nat
  rstCount : Nat
  startSS : Nat
  endSS : Nat
  sABPh : Nat
  sABPl : Nat
  sComps : List MScanComp
deriving DecidableEq, Inhabited

/-- A frame (`frame` of the `Desc` generation). -/
structure MFrame where
  encoding : Nat
  res : MSampling
  components : List MComponent
  scans : List MScan
deriving DecidableEq, Inhabited

/-- One quantization table of a `qtSeg` (a `[65]uint16` whose head word is
`pq<<8 | tq`). -/
structure QTbl where
  pq : Nat
  tq : Nat
  values : List Nat
deriving DecidableEq, Inhabited

/-- One class/destination table of a `htSeg` (`htcd`). -/
structure HTbl where
  hc : Nat
  hd : Nat
  data : List (List Nat)
deriving DecidableEq, Inhabited

/-- A parsed segment as kept in `jpg.segments`.  The source stores
pointers to the (mutable) frame and scan records, so frames and scans are
referenced here by index into `MDesc.frames`. -/
inductive MSeg where
  | frameRef (fIdx : Nat)
  | scanRef (fIdx sIdx : Nat)
  | qt (tables : List QTbl)
  | ht (tables : List HTbl)
  | ri (interval : Nat)
  | com (text : List Nat)
  | dnl (nLines : Nat) (toRemove : Bool)
deriving DecidableEq

/-- A quantization destination (`qdef`). -/
structure QDef where
  size : Nat
  values : List Nat
deriving DecidableEq, Inhabited

/-- A Huffman decode tree (`hcnode`); `nil` models a nil `*hcnode`. -/
inductive HTree where
  | nil : HTree
  | node (left right : HTree) (symbol : Nat) : HTree
deriving DecidableEq

instance : Inhabited HTree := ⟨.nil⟩

/-- A Huffman destination (`hdef`): the 16 per-length symbol lists and the
decode tree root (`none` models a nil root pointer). -/
structure HDefM where
  values : List (List Nat)
  root : Option HTree
deriving DecidableEq

instance : Inhabited HDefM := ⟨⟨List.replicate 16 [], none⟩⟩

/-- The parser states of section 4.5 / the `_INIT .. _FINAL` constants. -/
inductive MState where
  | init | application | frame | scan1 | scan1ecs | scanN | scanNecs | final
deriving DecidableEq

/-- The model of `Desc`: the fields of the source structure that the
segment handlers and serializers read or write (the raw `data` buffer and
the current index are threaded through the loop explicitly). -/
structure MDesc where
  offset : Nat
  state : MState
  nMcuRST : Nat
  qdefs : List QDef
  hdefs : List HDefM
  frames : List MFrame
  segments : List MSeg
  tidyUp : Bool
deriving DecidableEq

/-- `frame.actualLines` (`segment.go`): scan-derived lines win over
DNL-derived lines, which win over the SOF line count. -/
def actualLines (f : MFrame) : Nat :=
  if f.res.scanLines ≠ 0 then f.res.scanLines
  else if f.res.dnlLines ≠ 0 then f.res.dnlLines
  else f.res.nLines

/-! ## Serializers (`segment.go`, `Desc.serialize`) -/

/-- The three bytes of one component in `frame.serialize`. -/
def sofCompSer (c : MComponent) : List Nat :=
  [u8 c.Id, u8 (u8 (c.HSF * 16) + c.VSF), u8 c.QS]

/-- `frame.serialize`: SOFn marker, canonical length, precision,
`actualLines`, samples/line and the component triples. -/
def serializeFrame (f : MFrame) : List Nat :=
  u16be (u16 (0xffc0 + f.encoding)) ++
  u16be (u16 (f.components.length * 3 + 8)) ++
  [u8 f.res.samplePrecision] ++
  u16be (actualLines f) ++
  u16be f.res.nSamplesLine ++
  [u8 f.components.length] ++
  (f.components.map sofCompSer).flatten

/-- The two bytes of one scan-component reference in `scan.serialize`. -/
def scanCompSer (sc : MScanComp) : List Nat :=
  [u8 sc.cId, u8 (u8 (sc.dcId * 16) + sc.acId)]

/-- `scan.serialize`: SOS marker, canonical length, the component
references, the spectral-selection bytes, then the verbatim ECS bytes. -/
def serializeScan (s : MScan) : List Nat :=
  u16be 0xffda ++
  u16be (u16 (s.sComps.length * 2 + 6)) ++
  [u8 s.sComps.length] ++
  (s.sComps.map scanCompSer).flatten ++
  [u8 s.startSS, u8 s.endSS, u8 (u8 (s.sABPh * 16) + s.sABPl)] ++
  s.ecss

/-- The body bytes of one table of `qtSeg.serialize`. -/
def qtblSer (t : QTbl) : List Nat :=
  [u8 (u8 (t.pq * 16) + t.tq)] ++
  (if t.pq = 0 then t.values.map u8 else (t.values.map fun v => u16be (u16 v)).flatten)

/-- `qtSeg.serialize`. -/
def serializeQt (tables : List QTbl) : List Nat :=
  u16be 0xffdb ++
  u16be (tables.foldl (fun a t => u16 (a + 65 + 64 * t.pq)) 2) ++
  (tables.map qtblSer).flatten

/-- The body bytes of one table of `htSeg.serialize`: class/destination
byte, the 16 length counts, then the symbol lists. -/
def htblSer (t : HTbl) : List Nat :=
  [u8 (u8 (t.hc * 16) + t.hd)] ++ t.data.map (fun l => u8 l.length) ++ t.data.flatten

/-- `htSeg.serialize`. -/
def serializeHt (tables : List HTbl) : List Nat :=
  u16be 0xffc4 ++
  u16be (tables.foldl (fun a t => u16 (a + (t.data.foldl (fun b l => b + l.length) 17))) 2) ++
  (tables.map htblSer).flatten

/-- `riSeg.serialize`. -/
def serializeRi (interval : Nat) : List Nat :=
  u16be 0xffdd ++ u16be 4 ++ u16be (u16 interval)

/-- `comSeg.serialize`. -/
def serializeCom (text : List Nat) : List Nat :=
  u16be 0xfffe ++ u16be (u16 (2 + text.length)) ++ text

/-- `dnlSeg.serialize`: suppressed entirely when marked for removal. -/
def serializeDnl (nLines : Nat) (toRemove : Bool) : List Nat :=
  if toRemove then []
  else u16be 0xffdc ++ u16be 4 ++ u16be (u16 nLines)

/-- Serialization of one stored segment (frames and scans are looked up
in the final frame list, as the source segments hold pointers). -/
def serializeSeg (frames : List MFrame) : MSeg → List Nat
  | .frameRef f => serializeFrame (frames.getD f default)
  | .scanRef f s => serializeScan ((frames.getD f default).scans.getD s default)
  | .qt tables => serializeQt tables
  | .ht tables => serializeHt tables
  | .ri interval => serializeRi interval
  | .com text => serializeCom text
  | .dnl n toRemove => serializeDnl n toRemove

/-- `Desc.serialize` / `Generate`: SOI, every preserved segment, EOI. -/
def serializeDesc (desc : MDesc) : List Nat :=
  [0xff, 0xd8] ++ (desc.segments.map (serializeSeg desc.frames)).flatten ++ [0xff, 0xd9]

/-! ## `buildTree` (`segment.go`) -/

/-- One saved step of the `last`/`parent` pointer walk of `buildTree`: the
direction taken, the sibling subtree, and the parent's symbol field. -/
abbrev BTCtx := List (Bool × HTree × Nat)

/-- Reassemble the full tree from a zipper. -/
def btReassemble (cur : HTree) : BTCtx → HTree
  | [] => cur
  | (fromRight, sib, sym) :: rest =>
    btReassemble (if fromRight then .node sib cur sym else .node cur sib sym) rest

/-- The descent/backtrack loop of `buildTree` (`for ; level < cl ;`):
descend into a fresh right child, else a fresh left child, else back up
(panicking above the root).  The fuel only bounds the walk; the source
loop terminates on every input. -/
def btDescend (d : List Nat) : Nat → BTCtx → HTree → Nat → Nat →
    Except PErr (BTCtx × HTree × Nat)
  | 0, _, _, _, _ => .error (.goPanic "buildTree: out of fuel")
  | fuel+1, ctx, cur, level, cl =>
    if level < cl then
      match cur with
      | .nil => .error (.goPanic "buildTree: nil node")
      | .node l r sym =>
        if r = .nil then
          btDescend d fuel ((true, l, sym) :: ctx) (.node .nil .nil 0) (level + 1) cl
        else if l = .nil then
          btDescend d fuel ((false, r, sym) :: ctx) (.node .nil .nil 0) (level + 1) cl
        else if level = 0 then .error (.goPanic "backing up above root")
        else
          match ctx with
          | [] => .error (.goPanic "buildTree: empty context")
          | (fromRight, sib, psym) :: ctx' =>
            btDescend d fuel ctx'
              (if fromRight then .node sib cur psym else .node cur sib psym) (level - 1) cl
    else .ok (ctx, cur, level)

/-- Placing one symbol once the walk has reached its code length: the
current node must be a fresh leaf; the symbol is stored and the walk
ascends to the parent. -/
def btPlace (ctx : BTCtx) (cur : HTree) (level symbol : Nat) :
    Except PErr (BTCtx × HTree × Nat) :=
  match cur with
  | .nil => .error (.goPanic "buildTree: nil node")
  | .node l r _ =>
    if l ≠ .nil ∨ r ≠ .nil then .error (.goPanic "Last node is not a leaf node")
    else
      match ctx with
      | [] => .error (.goPanic "buildTree: no parent")
      | (fromRight, sib, psym) :: ctx' =>
        .ok (ctx',
             (if fromRight then HTree.node sib (HTree.node .nil .nil symbol) psym
              else HTree.node (HTree.node .nil .nil symbol) sib psym),
             level - 1)

/-- The (code length, symbol) stream of `buildTree`'s two nested loops. -/
def btSymbols (values : List (List Nat)) : List (Nat × Nat) :=
  values.enum.flatMap fun p => p.2.map fun s => (p.1 + 1, s)

/-- `buildTree` (`segment.go`): walks the symbols in order, placing each
at depth equal to its code length, descending right-first and backing up
through the parent pointers. -/
def buildTreeGo (values : List (List Nat)) : Except PErr HTree := do
  let r ← (btSymbols values).foldlM
    (fun (acc : BTCtx × HTree × Nat) p => do
      let (ctx, cur, level) ← btDescend [] 1000000 acc.1 acc.2.1 acc.2.2 p.1
      btPlace ctx cur level p.2)
    ([], HTree.node .nil .nil 0, 0)
  .ok (btReassemble r.2.1 r.1)

/-! ## Segment handlers (`segment.go`) -/

/-- The component triples of a SOF header (first loop of `startOfFrame`). -/
def sofReadComps (d : List Nat) : Nat → Nat → Except PErr (List (Nat × Nat × Nat × Nat))
  | _, 0 => .ok []
  | off, n+1 => do
    let cId ← rd d off
    let hv ← rd d (off + 1)
    let qs ← rd d (off + 2)
    let rest ← sofReadComps d (off + 3) n
    .ok ((cId, hv / 16, hv % 16, qs) :: rest)

/-- The allocation loop of `startOfFrame`: for each component index the
source prints `componentNames[i]` (a runtime fault past index 2) and
panics when the component's number of unit rows would be zero. -/
def sofAllocLoop (nMcusCol : Nat) : Nat → List (Nat × Nat × Nat × Nat) → Except PErr Unit
  | _, [] => .ok ()
  | idx, c :: rest =>
    if idx ≥ 3 then .error (.goPanic "componentNames index out of range")
    else if nMcusCol * c.2.2.1 = 0 then
      .error (.goPanic "Unknown number of lines during scan")
    else sofAllocLoop nMcusCol (idx + 1) rest

/-- The component records built by `startOfFrame` from the parsed
triples: the four header fields plus the derived grid geometry. -/
def sofComponents (nMcusRow nMcusCol : Nat)
    (comps : List (Nat × Nat × Nat × Nat)) : List MComponent :=
  comps.map fun c =>
    ⟨c.1, c.2.1, c.2.2.1, c.2.2.2, nMcusRow * c.2.1, nMcusCol * c.2.2.1⟩

/-- `startOfFrame` (`segment.go`). -/
def startOfFrame (d : List Nat) (st : MDesc) (i sLen marker : Nat) :
    Except PErr MDesc :=
  if st.state ≠ MState.frame ∧ st.state ≠ MState.application then
    .error (.goErr "startOfFrame: Wrong sequence")
  else if sLen < 8 then .error (.goErr "startOfFrame: Wrong SOF header")
  else do
    let nComponents ← rd d (i + 4 + 5)
    if sLen < 8 + nComponents * 3 then
      .error (.goErr "startOfFrame: Wrong SOF header for components")
    else do
      let samplePrecision ← rd d (i + 4)
      let nLines ← rd16 d (i + 5)
      let nSamplesLine ← rd16 d (i + 7)
      let comps ← sofReadComps d (i + 10) nComponents
      let mhSF := comps.foldl (fun m c => max m c.2.1) 0
      let mvSF := comps.foldl (fun m c => max m c.2.2.1) 0
      if 8 * mhSF = 0 then .error (.goPanic "integer divide by zero")
      else
        let nMcusRow := u16 (u16 (nSamplesLine + 8 * mhSF) + 65535) / (8 * mhSF)
        if 8 * mvSF = 0 then .error (.goPanic "integer divide by zero")
        else
          let nMcusCol := u16 (u16 (nLines + 8 * mvSF) + 65535) / (8 * mvSF)
          match sofAllocLoop nMcusCol 0 comps with
          | .error e => .error e
          | .ok _ =>
            let components := sofComponents nMcusRow nMcusCol comps
            let frm : MFrame :=
              { encoding := marker % 16,
                res := { nLines := nLines, nSamplesLine := nSamplesLine,
                         dnlLines := 0, scanLines := 0,
                         samplePrecision := samplePrecision,
                         mhSF := mhSF, mvSF := mvSF },
                components := components, scans := [] }
            .ok { st with frames := st.frames ++ [frm],
                          segments := st.segments ++ [.frameRef st.frames.length],
                          state := .scan1 }

/-- The 64 table values of one DQT destination (8- or 16-bit entries),
with the offset after them. -/
def qtReadValues (d : List Nat) (pq : Nat) : Nat → Nat → Except PErr (List Nat × Nat)
  | off, 0 => .ok ([], off)
  | off, n+1 =>
    if pq = 0 then do
      let v ← rd d off
      let (rest, out) ← qtReadValues d pq (off + 1) n
      .ok (v :: rest, out)
    else do
      let v ← rd16 d off
      let (rest, out) ← qtReadValues d pq (off + 2) n
      .ok (v :: rest, out)

/-- The do-while table loop of `defineQuantizationTable`. -/
def qtLoop (d : List Nat) (endOff : Nat) :
    Nat → Nat → List QTbl → List QDef → Except PErr (List QTbl × List QDef × Nat)
  | 0, _, _, _ => .error (.goPanic "qtLoop: out of fuel")
  | fuel+1, off, acc, qdefs => do
    let pqtq ← rd d off
    let pq := pqtq / 16
    let tq := pqtq % 16
    if pq > 1 then .error (.goErr "defineQuantizationTable: Wrong precision")
    else if tq > 3 then .error (.goErr "defineQuantizationTable: Wrong destination")
    else do
      let (values, off') ← qtReadValues d pq (off + 1) 64
      let qdefs' := qdefs.set tq ⟨8 * (pq + 1), values⟩
      let acc' := acc ++ [⟨pq, tq, values⟩]
      if off' ≥ endOff then .ok (acc', qdefs', off')
      else qtLoop d endOff fuel off' acc' qdefs'

/-- `defineQuantizationTable` (`segment.go`). -/
def defineQuantizationTable (d : List Nat) (st : MDesc) (i sLen : Nat) :
    Except PErr MDesc := do
  let (tables, qdefs', off') ← qtLoop d (i + 2 + sLen) (sLen + 2) (i + 4) [] st.qdefs
  if off' ≠ i + 2 + sLen then
    .error (.goErr "defineQuantizationTable: Invalid DQT length")
  else .ok { st with qdefs := qdefs', segments := st.segments ++ [.qt tables] }

/-- The 16 length-count bytes of one DHT destination. -/
def htLens (d : List Nat) (off : Nat) : Nat → Except PErr (List Nat)
  | 0 => .ok []
  | n+1 => do
    let v ← rd d off
    let rest ← htLens d (off + 1) n
    .ok (v :: rest)

/-- The symbol lists of one DHT destination (slices of the input buffer),
with the offset after them. -/
def htReadVals (d : List Nat) : Nat → List Nat → Except PErr (List (List Nat) × Nat)
  | voff, [] => .ok ([], voff)
  | voff, li :: rest => do
    let vals ← rdSlice d voff (voff + li)
    let (others, out) ← htReadVals d (voff + li) rest
    .ok (vals :: others, out)

/-- The do-while table loop of `defineHuffmanTable`: each destination's
symbol lists replace the `hdefs` entry and its decode tree is rebuilt. -/
def htLoop (d : List Nat) (endOff : Nat) :
    Nat → Nat → List HTbl → List HDefM → Except PErr (List HTbl × List HDefM × Nat)
  | 0, _, _, _ => .error (.goPanic "htLoop: out of fuel")
  | fuel+1, off, acc, hdefs => do
    let tcth ← rd d off
    let tc := tcth / 16
    let th := tcth % 16
    if tc > 1 ∨ th > 3 then
      .error (.goErr "defineHuffmanTable: Wrong table class/destination")
    else do
      let lens ← htLens d (off + 1) 16
      let (vals, voff') ← htReadVals d (off + 17) lens
      let root ← buildTreeGo vals
      let hdefs' := hdefs.set (2 * th + tc) ⟨vals, some root⟩
      let acc' := acc ++ [⟨tc, th, vals⟩]
      if voff' ≥ endOff then .ok (acc', hdefs', voff')
      else htLoop d endOff fuel voff' acc' hdefs'

/-- `defineHuffmanTable` (`segment.go`). -/
def defineHuffmanTable (d : List Nat) (st : MDesc) (i sLen : Nat) :
    Except PErr MDesc := do
  let (tables, hdefs', off') ← htLoop d (i + 2 + sLen) (sLen + 2) (i + 4) [] st.hdefs
  if off' ≠ i + 2 + sLen then
    .error (.goErr "defineHuffmanTable: Invalid DHT length")
  else .ok { st with hdefs := hdefs', segments := st.segments ++ [.ht tables] }

/-- The component warning loop of `defineRestartInterval` (it breaks at
the first component whose MCU-per-row count is below the interval; a zero
horizontal sampling factor is a division fault). -/
def driCompLoop (interval : Nat) : List MComponent → Except PErr Unit
  | [] => .ok ()
  | c :: rest =>
    if c.HSF = 0 then .error (.goPanic "integer divide by zero")
    else if c.nUnitsRow / c.HSF < interval then .ok ()
    else driCompLoop interval rest

/-- `defineRestartInterval` (`segment.go`): no length validation is
performed; a missing frame is a nil dereference and a zero interval a
division fault in the samples-per-line check. -/
def defineRestartInterval (d : List Nat) (st : MDesc) (i _sLen : Nat) :
    Except PErr MDesc := do
  let interval ← rd16 d (i + 4)
  match st.frames.getLast? with
  | none => .error (.goPanic "nil frame dereference in defineRestartInterval")
  | some frm =>
    if interval = 0 then .error (.goPanic "integer divide by zero")
    else do
      let _ ← driCompLoop interval frm.components
      .ok { st with nMcuRST := interval, segments := st.segments ++ [.ri interval] }

/-- `commentSegment` (`segment.go`): the stored text is the slice
`data[offset : offset+sLen]` taken from the marker itself, i.e. it
includes the marker and length bytes and misses the last two bytes of
the comment body. -/
def commentSegment (d : List Nat) (st : MDesc) (i sLen : Nat) :
    Except PErr MDesc := do
  let text ← rdSlice d i (i + sLen)
  .ok { st with segments := st.segments ++ [.com text] }

/-- `defineNumberOfLines` (`segment.go`): the DNL value is always folded
into the frame's `dnlLines`; the segment is marked for removal when
tidy-up is enabled AND the SOF line count was non-zero. -/
def defineNumberOfLines (d : List Nat) (st : MDesc) (i sLen : Nat) :
    Except PErr MDesc :=
  if st.state ≠ MState.scanN then
    .error (.goErr "defineNumberOfLines: Wrong sequence")
  else if sLen ≠ 4 then .error (.goErr "defineNumberOfLines: Wrong DNL header")
  else
    match st.frames.getLast? with
    | none => .error (.goPanic "defineNumberOfLines: no current frame")
    | some frm =>
      if frm.res.dnlLines ≠ 0 then
        .error (.goErr "defineNumberOfLines: Multiple DNL tables")
      else do
        let nLines ← rd16 d (i + 4)
        let toRemove := st.tidyUp && (frm.res.nLines != 0)
        let frm' := { frm with res := { frm.res with dnlLines := nLines } }
        .ok { st with frames := st.frames.set (st.frames.length - 1) frm',
                      segments := st.segments ++ [.dnl nLines toRemove] }

/-! ## `processScan` (`segment.go`) and the spec-modelled ECS walk -/

/-- Modelled from the spec: the entropy-coded-segment processors
(`processSequentialEcs`, `processRefiningDcEcs`, `processInitialAcEcs`,
`processRefiningAcEcs`) belong to this repository but their source file
is not under `src/`; only their installer `getEcsFct` is.  Per §4.5 of
the spec the end of an entropy-coded segment "is found by scanning
forward for the first 0xFF xx where xx ∉ {0x00, 0xD0..0xD7}", each
processor call stopping at the first `0xFF` followed by a non-zero byte
(the in-`src/` predecessor `processECS` of `analyse.go` implements this
same stopping skeleton); `processScan` itself resumes after restart
markers.  Entropy decoding failures and the decoded MCU count are not
modelled. -/
def ecsScanEnd (d : List Nat) : Nat → Nat → Nat
  | 0, i => i
  | fuel+1, i =>
    if i < d.length - 1 then
      if d.getD i 0 = 255 then
        if i + 1 ≥ d.length - 1 ∨ d.getD (i + 1) 0 ≠ 0 then i
        else ecsScanEnd d fuel (i + 2)
      else ecsScanEnd d fuel (i + 1)
    else i

/-- The restart-marker loop of `processScan` (`segment.go`): run the ECS
processor, and while the stop position is followed by a RST0..RST7
marker, skip the marker and continue.  Returns the final stop offset,
the offset of the last restart marker seen (0 when none, as in the
source) and the restart count. -/
def scanSpanEnd (d : List Nat) : Nat → Nat → Nat → Nat → Nat × Nat × Nat
  | 0, off, lastRSTIndex, rstCount => (off, lastRSTIndex, rstCount)
  | fuel+1, off, lastRSTIndex, rstCount =>
    let nIx := ecsScanEnd d (d.length + 1) off
    if nIx + 1 ≥ d.length ∨ d.getD (nIx + 1) 0 < 0xd0 ∨ 0xd7 < d.getD (nIx + 1) 0 then
      (nIx, lastRSTIndex, rstCount)
    else scanSpanEnd d fuel (nIx + 2) nIx (rstCount + 1)

/-- The scan-component references of a SOS header
(`processScanHeader`). -/
def scanCompRefs (d : List Nat) : Nat → Nat → Except PErr (List (Nat × Nat × Nat))
  | _, 0 => .ok []
  | off, n+1 => do
    let cmId ← rd d off
    let eIDs ← rd d (off + 1)
    let rest ← scanCompRefs d (off + 2) n
    .ok ((cmId, eIDs / 16, eIDs % 16) :: rest)

/-- The body of `setScan` (`segment.go`) once the frame component with
the matching id has been found: check the quantization table and the
needed Huffman roots, and derive the sampling geometry (copied from the
component in multi-component scans, recomputed from the rounding factor
in single-component scans). -/
def setScanCompFound (st : MDesc) (frm : MFrame) (nComp startSS endSS : Nat)
    (r : Nat × Nat × Nat) (j : Nat) (cmp : MComponent) : Except PErr MScanComp :=
    if cmp.QS > 3 then .error (.goPanic "qdefs index out of range")
    else if (st.qdefs.getD cmp.QS default).size = 0 then
      .error (.goErr "Missing Quantization table for scan")
    else if (st.qdefs.getD cmp.QS default).size ≠ frm.res.samplePrecision then
      .error (.goErr "Quantization size does not match frame sample size")
    else if startSS = 0 ∧ r.2.1 > 3 then
      .error (.goPanic "hdefs index out of range")
    else if startSS = 0 ∧ (st.hdefs.getD (2 * r.2.1) default).root = none then
      .error (.goErr "Missing Huffman table for DC scan")
    else if endSS > 0 ∧ r.2.2 > 3 then
      .error (.goPanic "hdefs index out of range")
    else if endSS > 0 ∧ (st.hdefs.getD (2 * r.2.2 + 1) default).root = none then
      .error (.goErr "Missing Huffman table for AC scan")
    else if nComp > 1 then
      .ok ⟨j, cmp.Id, r.2.1, r.2.2, cmp.HSF, cmp.VSF, cmp.nUnitsRow⟩
    else if cmp.HSF = 0 then .error (.goPanic "integer divide by zero")
    else
      let roundingFactor := frm.res.mhSF * 8 / cmp.HSF
      if roundingFactor = 0 then .error (.goPanic "integer divide by zero")
      else
        .ok ⟨j, cmp.Id, r.2.1, r.2.2, 1, 1,
             u16 (u16 (frm.res.nSamplesLine + roundingFactor) + 65535) / roundingFactor⟩

/-- `setScan` (`segment.go`) for one scan-component reference: find the
frame component with the same id (the source loop keeps the last match)
and delegate to the body above. -/
def setScanComp (st : MDesc) (frm : MFrame) (nComp startSS endSS : Nat)
    (r : Nat × Nat × Nat) : Except PErr MScanComp :=
  match (frm.components.enum.filter fun p => p.2.Id = r.1).getLast? with
  | none => .error (.goErr "Unknown component id for scan")
  | some (j, cmp) => setScanCompFound st frm nComp startSS endSS r j cmp

/-- `getEcsFct` (`segment.go`), reduced to its mode admissibility checks
(the four ECS processors it selects are outside `src/`, see
`ecsScanEnd`): baseline sequential is accepted; progressive scans panic
on a DC/AC mix or a multi-component AC scan; all other modes are
errors. -/
def getEcsFctCheck (frm : MFrame) (startSS endSS nComp : Nat) : Except PErr Unit :=
  if frm.encoding % 4 = 0 then .ok ()
  else if frm.encoding % 4 = 2 then
    if startSS = 0 then
      if endSS ≠ 0 then
        .error (.goPanic "Progressive frame mixing DC and AC coefficient in same scan")
      else .ok ()
    else if nComp ≠ 1 then
      .error (.goPanic "Progressive frame AC only scan with multiple components")
    else .ok ()
  else .error (.goErr "processScan: unsupported scanning mode")

/-- `processScan` (`segment.go`): header checks, `setScan`, the ECS/RST
walk, the optional trailing-RST trim (tidy-up only), then the scan is
recorded in the frame and the segment list and the parser state becomes
`SCANn`.  Returns the updated model and the new input offset (`nIx`). -/
def processScan (d : List Nat) (st : MDesc) (i sLen : Nat) :
    Except PErr (MDesc × Nat) :=
  if st.state ≠ MState.scan1 ∧ st.state ≠ MState.scanN then
    .error (.goErr "processScan: Wrong sequence")
  else if sLen < 6 then .error (.goErr "processScan: Wrong SOS header")
  else
    match st.frames.getLast? with
    | none => .error (.goPanic "Scan without frame")
    | some frm => do
      let nComponents ← rd d (i + 4)
      if sLen ≠ 6 + nComponents * 2 then
        .error (.goErr "processScanHeader: Wrong SOS header")
      else do
        let refs ← scanCompRefs d (i + 5) nComponents
        let startSS ← rd d (i + 5 + 2 * nComponents)
        let endSS ← rd d (i + 6 + 2 * nComponents)
        let sABP ← rd d (i + 7 + 2 * nComponents)
        let sComps ← refs.mapM (setScanComp st frm nComponents startSS endSS)
        let _ ← getEcsFctCheck frm startSS endSS sComps.length
        let firstECS := i + sLen + 2
        let (nIxRaw, lastRSTIndex, rstCount) := scanSpanEnd d (d.length + 1) firstECS 0 0
        let nIx := if lastRSTIndex = nIxRaw - 2 ∧ st.tidyUp then nIxRaw - 2 else nIxRaw
        let sc : MScan :=
          { ecss := extract d firstECS nIx, nMcus := 0,
            rstInterval := st.nMcuRST, rstCount := rstCount,
            startSS := startSS, endSS := endSS,
            sABPh := sABP / 16, sABPl := sABP % 16, sComps := sComps }
        let fIdx := st.frames.length - 1
        let sIdx := frm.scans.length
        .ok ({ st with frames := st.frames.set fIdx ({ frm with scans := frm.scans ++ [sc] }),
                       segments := st.segments ++ [.scanRef fIdx sIdx],
                       state := MState.scanN, offset := nIx }, nIx)

/-- The per-component consistency walk of `fixLines`. -/
def fixLinesLoop (nLines0 yVSF : Nat) : List MComponent → Except PErr Unit
  | [] => .ok ()
  | c :: rest =>
    if c.VSF = 0 then .error (.goPanic "integer divide by zero")
    else if nLines0 * yVSF / c.VSF ≠ nLines0 then
      .error (.goPanic "Inconsistent frame component resolution")
    else fixLinesLoop nLines0 yVSF rest

/-- `fixLines` (`segment.go`), run at EOI when tidy-up is enabled:
derives the scan line count from the first component's allocated unit
rows and overwrites `scanLines` when it is out of the tolerated band
(`uint16` arithmetic, as in the source). -/
def fixLines (st : MDesc) : Except PErr MDesc :=
  match st.frames.getLast? with
  | none => .error (.goPanic "nil frame in fixLines")
  | some frm =>
    if frm.encoding > 1 then .ok st
    else
      match frm.components.head? with
      | none => .error (.goPanic "index out of range")
      | some c0 => do
        let nLines0 := c0.nUnitsCol
        let _ ← fixLinesLoop nLines0 c0.VSF frm.components
        let scanLines := u16 (nLines0 * 8)
        if scanLines < frm.res.nLines ∨
            scanLines > u16 (frm.res.nLines + 65536 - u16 (frm.res.mvSF * 8)) then
          let frm' := { frm with res := { frm.res with scanLines := scanLines } }
          .ok { st with frames := st.frames.set (st.frames.length - 1) frm' }
        else .ok st

/-! ## The `Parse` driver (the `Desc` generation) -/

/-- Is the marker one of the SOF markers `Parse` dispatches to
`startOfFrame` (SOF0..SOF15 minus DHT, JPG and DAC)? -/
def isSOFmarker (m : Nat) : Bool :=
  decide (0xffc0 ≤ m ∧ m ≤ 0xffcf ∧ m ≠ 0xffc4 ∧ m ≠ 0xffc8 ∧ m ≠ 0xffcc)

/-- The fresh `Desc` allocated by `Parse` (Go zero values). -/
def initDesc (tidy : Bool) : MDesc :=
  { offset := 0, state := MState.init, nMcuRST := 0,
    qdefs := List.replicate 4 ⟨0, List.replicate 64 0⟩,
    hdefs := List.replicate 8 ⟨List.replicate 16 [], none⟩,
    frames := [], segments := [], tidyUp := tidy }

/-- The marker loop of `Parse`.  `APP0`/`APP1` delegate to the JFIF/EXIF
metadata adapters, which the spec declares external collaborators outside
the core, so the model rejects them (restricting the modelled input
class); `APP2..APP15` are skipped without storing a segment, exactly as
in the source.  Each iteration advances by at least two bytes, so fuel
`d.length + 1` never runs out on accepted inputs. -/
def parseLoop (d : List Nat) (tidy : Bool) : Nat → Nat → MDesc → Except PErr MDesc
  | 0, _, _ => .error (.goPanic "parseLoop: out of fuel")
  | fuel+1, i, st =>
    if i < d.length then do
      let b0 ← rd d i
      let b1 ← rd d (i + 1)
      let marker := b0 * 256 + b1
      if marker < 0xff01 then .error (.goErr "Parse: invalid marker")
      else if marker = 0xffd8 then
        if st.state ≠ MState.init then .error (.goErr "Parse: Wrong sequence SOI")
        else parseLoop d tidy fuel (i + 2) { st with state := MState.application, offset := i + 2 }
      else if 0xffd0 ≤ marker ∧ marker ≤ 0xffd7 then
        .error (.goErr "Parse: RST marker in top level segments")
      else if marker = 0xffd9 then
        if st.state ≠ MState.scan1 ∧ st.state ≠ MState.scanN then
          .error (.goErr "Parse: Wrong sequence EOI")
        else
          let st' := { st with state := MState.final, offset := i + 2 }
          if tidy then fixLines st' else .ok st'
      else do
        let b2 ← rd d (i + 2)
        let b3 ← rd d (i + 3)
        let sLen := b2 * 256 + b3
        if marker = 0xffda then do
          let r ← processScan d st i sLen
          parseLoop d tidy fuel r.2 r.1
        else do
          let st' ←
            if marker = 0xffe0 ∨ marker = 0xffe1 then
              .error (.goErr "model: APP0/APP1 metadata adapters are outside the modelled core")
            else if 0xffe2 ≤ marker ∧ marker ≤ 0xffef then .ok st
            else if isSOFmarker marker then startOfFrame d st i sLen marker
            else if marker = 0xffc4 then defineHuffmanTable d st i sLen
            else if marker = 0xffdb then defineQuantizationTable d st i sLen
            else if marker = 0xffcc then
              .error (.goErr "Parse: Unsupported Arithmetic coding table")
            else if marker = 0xffdc then defineNumberOfLines d st i sLen
            else if marker = 0xffdd then defineRestartInterval d st i sLen
            else if marker = 0xfffe then commentSegment d st i sLen
            else if marker = 0xffde ∨ marker = 0xffdf then
              .error (.goErr "Parse: Unsupported hierarchical table")
            else .error (.goErr "Parse: Unsupported JPEG extension or reserved marker")
          let st'' :=
            if st'.state = MState.application ∧ ¬(0xffe0 ≤ marker ∧ marker ≤ 0xffef) then
              { st' with state := MState.frame }
            else st'
          parseLoop d tidy fuel (i + sLen + 2) { st'' with offset := i + sLen + 2 }
    else .ok st

/-- `Parse` (the `Desc` generation): signature check, then the marker
loop. -/
def Parse (d : List Nat) (tidy : Bool) : Except PErr MDesc :=
  if d.length < 2 then .error (.goPanic "slice bounds out of range")
  else if ¬(d.getD 0 0 = 255 ∧ d.getD 1 0 = 216) then
    .error (.goErr "Parse: Wrong signature for a JPEG file")
  else parseLoop d tidy (d.length + 1) 0 (initDesc tidy)

/-- `IsComplete`: the parse ended in the FINAL state. -/
def IsComplete (desc : MDesc) : Bool := desc.state = MState.final

theorem except_bind_ok {α β ε : Type} (a : α) (f : α → Except ε β) :
    (Except.ok a : Except ε α) >>= f = f a := rfl

theorem rd_eq_ok {d : List Nat} {i : Nat} (h : i < d.length) :
    rd d i = .ok (d.getD i 0) := by simp [rd, h]

/-- Concrete input for the C2 counterexample: SOI, a canonical SOF0
header (8 lines, 8 samples/line, one component), then EOI -- no SOS
segment at all. -/
def c2Input : List Nat :=
  [255, 216, 255, 192, 0, 11, 8, 0, 8, 0, 8, 1, 1, 17, 0, 255, 217]

def c2Desc : MDesc := (Parse c2Input false).toOption.getD (initDesc false)

/-- C2 counterexample: `Parse` accepts EOI directly from the SCAN1 state
reached by the SOF header -- the file is accepted as complete although no
SOS segment (and hence no entropy-coded data) was ever processed. -/
theorem claim_C2_counterexample :
    Parse c2Input false = .ok c2Desc ∧
    IsComplete c2Desc = true ∧
    (c2Desc.frames.getD 0 default).scans = [] ∧
    c2Desc.segments = [.frameRef 0] := by decide

/-- C2 (amended): the state checks `Parse` actually enforces.  EOI is
accepted exactly in the SCAN1 and SCANn states (the `_ECS` states are
transient inside `processScan`, which returns in SCANn), so a frame
header with no scan is accepted as complete; SOI only in INIT; a
top-level RST marker is always an error; `startOfFrame` requires
APPLICATION or FRAME; `processScan` requires SCAN1 or SCANn; and
`defineNumberOfLines` requires SCANn. -/
theorem claim_C2_state_machine (d : List Nat) (tidy : Bool) (fuel i : Nat)
    (st : MDesc) (hi : i + 1 < d.length) :
    ((d.getD i 0 = 255 ∧ d.getD (i + 1) 0 = 217) →
      (st.state ≠ MState.scan1 ∧ st.state ≠ MState.scanN →
        parseLoop d tidy (fuel + 1) i st = .error (.goErr "Parse: Wrong sequence EOI")) ∧
      (tidy = false → st.state = MState.scan1 ∨ st.state = MState.scanN →
        parseLoop d tidy (fuel + 1) i st =
          .ok { st with state := MState.final, offset := i + 2 })) ∧
    ((d.getD i 0 = 255 ∧ d.getD (i + 1) 0 = 216) → st.state ≠ MState.init →
      parseLoop d tidy (fuel + 1) i st = .error (.goErr "Parse: Wrong sequence SOI")) ∧
    ((d.getD i 0 = 255 ∧ 208 ≤ d.getD (i + 1) 0 ∧ d.getD (i + 1) 0 ≤ 215) →
      parseLoop d tidy (fuel + 1) i st =
        .error (.goErr "Parse: RST marker in top level segments")) ∧
    (∀ sLen marker, st.state ≠ MState.application → st.state ≠ MState.frame →
      startOfFrame d st i sLen marker = .error (.goErr "startOfFrame: Wrong sequence")) ∧
    (∀ sLen, st.state ≠ MState.scan1 → st.state ≠ MState.scanN →
      processScan d st i sLen = .error (.goErr "processScan: Wrong sequence")) ∧
    (∀ sLen, st.state ≠ MState.scanN →
      defineNumberOfLines d st i sLen = .error (.goErr "defineNumberOfLines: Wrong sequence")) := by
  have h0 : i < d.length := by omega
  refine ⟨fun hb => ⟨fun hst => ?_, fun htidy hst => ?_⟩, fun hb hst => ?_, fun hb => ?_,
          fun sLen marker h1 h2 => ?_, fun sLen h1 h2 => ?_, fun sLen h1 => ?_⟩
  · simp only [parseLoop, if_pos h0, rd_eq_ok h0, rd_eq_ok hi, except_bind_ok,
               hb.1, hb.2]
    norm_num
    intro h
    exact absurd (h hst.1) hst.2
  · simp only [parseLoop, if_pos h0, rd_eq_ok h0, rd_eq_ok hi, except_bind_ok,
               hb.1, hb.2]
    norm_num
    rw [if_neg (by rcases hst with h | h <;> simp [h]), htidy]
    simp
  · simp only [parseLoop, if_pos h0, rd_eq_ok h0, rd_eq_ok hi, except_bind_ok,
               hb.1, hb.2]
    norm_num
    intro h
    exact absurd h hst
  · simp only [parseLoop, if_pos h0, rd_eq_ok h0, rd_eq_ok hi, except_bind_ok,
               hb.1]
    rw [if_neg (by omega), if_neg (by omega), if_pos (by omega)]
  · unfold startOfFrame
    rw [if_pos ⟨h2, h1⟩]
  · unfold processScan
    rw [if_pos ⟨h1, h2⟩]
  · unfold defineNumberOfLines
    rw [if_pos h1]

theorem claim_C2_state_machine_witness :
    parseLoop c2Input false (c2Input.length + 1 - 15) 15
        { initDesc false with state := MState.scan1 } =
      .ok { initDesc false with state := MState.final, offset := 17 } :=
  ((claim_C2_state_machine c2Input false (c2Input.length - 15) 15
      { initDesc false with state := MState.scan1 } (by decide)).1
    (by decide)).2 rfl (Or.inl rfl)

/-! ## `defineNumberOfLines` against its own documentation (C7) -/

/-- A frame whose SOF declared zero lines (as in the C7 scenario; note
the `Desc` generation's `startOfFrame` panics on such a frame, so this
state is constructed directly). -/
def c7FrameA : MFrame :=
  { encoding := 0,
    res := { nLines := 0, nSamplesLine := 8, dnlLines := 0, scanLines := 0,
             samplePrecision := 8, mhSF := 1, mvSF := 1 },
    components := [⟨1, 1, 1, 0, 1, 1⟩], scans := [] }

/-- The same frame with a non-zero SOF line count. -/
def c7FrameB : MFrame :=
  { c7FrameA with res := { c7FrameA.res with nLines := 500 } }

def c7St (frm : MFrame) : MDesc :=
  { initDesc true with state := MState.scanN, frames := [frm] }

/-- A DNL segment declaring 480 lines, at offset 0. -/
def c7Dnl : List Nat := [255, 220, 0, 4, 1, 224]

/-- C7: with tidy-up enabled the code does the opposite of its own
documentation: when the SOF line count was 0 the DNL segment is KEPT
(`toRemove = false`, so it serializes in full) although the DNL value is
folded into the frame; when the SOF line count was non-zero the DNL
segment is REMOVED and the folded DNL value also replaces the SOF value
on serialization (`actualLines` prefers `dnlLines`). -/
theorem claim_C7_dnl_folding_inverted :
    (defineNumberOfLines c7Dnl (c7St c7FrameA) 0 4 =
      .ok { c7St c7FrameA with
              frames := [{ c7FrameA with res := { c7FrameA.res with dnlLines := 480 } }],
              segments := [.dnl 480 false] } ∧
     serializeDnl 480 false = c7Dnl ∧
     actualLines { c7FrameA with res := { c7FrameA.res with dnlLines := 480 } } = 480) ∧
    (defineNumberOfLines c7Dnl (c7St c7FrameB) 0 4 =
      .ok { c7St c7FrameB with
              frames := [{ c7FrameB with res := { c7FrameB.res with dnlLines := 480 } }],
              segments := [.dnl 480 true] } ∧
     serializeDnl 480 true = [] ∧
     actualLines { c7FrameB with res := { c7FrameB.res with dnlLines := 480 } } = 480) := by
  decide

/-! ## `GetFrameInfo` (`format.go`, C9) -/

/-- The exported `Component` record returned inside `FrameInfo`. -/
structure FComponent where
  Id : Nat
  HSF : Nat
  VSF : Nat
  QS : Nat
deriving DecidableEq, Inhabited

/-- The exported `FrameInfo` record (`format.go`): encoding mode, entropy
coding, sample size, width, height and the component list. -/
structure FrameInfo where
  Mode : Nat
  Entropy : Nat
  SampleSize : Nat
  Width : Nat
  Height : Nat
  Components : List FComponent
deriving DecidableEq

/-- `GetFrameInfo` (`format.go`): the scalar fields are taken from the
frame; each output component is built by the source's four successive
assignments, every one of which targets the `Id` field (transcribed
verbatim -- `finfo.Components[i].Id = cmp.Id / cmp.HSF / cmp.VSF /
cmp.QS`), over the zero value produced by `make`. -/
def GetFrameInfo (j : MDesc) (fi : Nat) : Except String FrameInfo :=
  if fi ≥ j.frames.length then .error "GetFrameInfo: frame is absent"
  else
    let frm := j.frames.getD fi default
    .ok { Mode := frm.encoding % 4,
          Entropy := frm.encoding / 8,
          SampleSize := frm.res.samplePrecision,
          Width := frm.res.nSamplesLine,
          Height := actualLines frm,
          Components := frm.components.map fun cmp =>
            let c0 : FComponent := ⟨0, 0, 0, 0⟩
            let c1 := { c0 with Id := cmp.Id }
            let c2 := { c1 with Id := cmp.HSF }
            let c3 := { c2 with Id := cmp.VSF }
            { c3 with Id := cmp.QS } }

/-- A parsed frame with a component whose Id, HSF, VSF, QS are 1, 2, 2, 3. -/
def c9Desc : MDesc :=
  { initDesc false with
      state := MState.final,
      frames := [{ encoding := 0,
                   res := { nLines := 16, nSamplesLine := 16, dnlLines := 0,
                            scanLines := 0, samplePrecision := 8, mhSF := 2, mvSF := 2 },
                   components := [⟨1, 2, 2, 3, 2, 2⟩], scans := [] }] }

/-- C9: `GetFrameInfo` returns the right mode, entropy, sample size,
width and height, but the component list is wrong: all four assignments
in the copy loop target the `Id` field, so the returned component is
`{Id = QS, HSF = 0, VSF = 0, QS = 0}` instead of the parsed
`{Id, HSF, VSF, QS}`. -/
theorem claim_C9_component_fields :
    GetFrameInfo c9Desc 0 =
      .ok { Mode := 0, Entropy := 0, SampleSize := 8, Width := 16, Height := 16,
            Components := [⟨3, 0, 0, 0⟩] } ∧
    [(⟨3, 0, 0, 0⟩ : FComponent)] ≠ [(⟨1, 2, 2, 3⟩ : FComponent)] := by decide

/-! ## Canonical inputs and the round-trip development (C1) -/

/-- The byte-level canonicality walk used by the amended round-trip
claim.  It advances through the markers exactly as `Parse` does (using
the same `scanSpanEnd` for scans) and accepts only inputs whose
serialization is reproduced byte for byte: no COM segments (their parsed
text is offset by four bytes), no DNL segments (their value replaces the
SOF line count on output), no APPn segments (APP0/APP1 belong to the
external metadata adapters and APP2..APP15 are dropped by `Parse`),
canonical SOF and DRI declared lengths, and EOI exactly at the end of the
buffer. -/
def canonLoop (d : List Nat) : Nat → Nat → Bool
  | 0, _ => false
  | fuel+1, i =>
    if i + 1 < d.length then
      let m := d.getD i 0 * 256 + d.getD (i + 1) 0
      if m = 0xffd8 then canonLoop d fuel (i + 2)
      else if m = 0xffd9 then i + 2 == d.length
      else if i + 3 < d.length then
        let sLen := d.getD (i + 2) 0 * 256 + d.getD (i + 3) 0
        if m = 0xffda then
          canonLoop d fuel (scanSpanEnd d (d.length + 1) (i + sLen + 2) 0 0).1
        else if isSOFmarker m then
          (sLen == 8 + 3 * d.getD (i + 9) 0) && canonLoop d fuel (i + sLen + 2)
        else if m = 0xffc4 ∨ m = 0xffdb then canonLoop d fuel (i + sLen + 2)
        else if m = 0xffdd then (sLen == 4) && canonLoop d fuel (i + sLen + 2)
        else false
      else false
    else false

/-- Canonicality of a whole input, with the same fuel as `Parse`. -/
def canonicalBytes (d : List Nat) : Bool := canonLoop d (d.length + 1) 0

/-- The serialized bytes of the segments recorded so far. -/
def segsBytes (st : MDesc) : List Nat :=
  (st.segments.map (serializeSeg st.frames)).flatten

/-- Well-formedness of one stored segment reference with respect to a
frame list: frame and scan indices point into the list. -/
def PerSegWF (frames : List MFrame) (seg : MSeg) : Prop :=
  (∀ f, seg = .frameRef f → f < frames.length) ∧
  (∀ f sIdx, seg = .scanRef f sIdx →
    f < frames.length ∧ sIdx < (frames.getD f default).scans.length)

/-- Well-formedness of the stored segment references: frame and scan
indices point into the frame list. -/
def SegWF (st : MDesc) : Prop :=
  ∀ seg ∈ st.segments, PerSegWF st.frames seg

theorem rd_ok_elim {d : List Nat} {i v : Nat} (h : rd d i = .ok v) :
    i < d.length ∧ d.getD i 0 = v := by
  unfold rd at h
  by_cases hb : i < d.length
  · rw [if_pos hb] at h
    exact ⟨hb, (Except.ok.injEq _ _).mp h⟩
  · rw [if_neg hb] at h
    exact Except.noConfusion h

theorem rd16_ok_elim {d : List Nat} {i v : Nat} (h : rd16 d i = .ok v) :
    i + 1 < d.length ∧ v = d.getD i 0 * 256 + d.getD (i + 1) 0 := by
  unfold rd16 at h
  cases h1 : rd d i with
  | error e => rw [h1] at h; simp only [Bind.bind, Except.bind] at h; exact Except.noConfusion h
  | ok hi =>
    rw [h1] at h
    simp only [Bind.bind, Except.bind] at h
    cases h2 : rd d (i + 1) with
    | error e => rw [h2] at h; exact Except.noConfusion h
    | ok lo =>
      rw [h2] at h
      obtain ⟨hb1, hv1⟩ := rd_ok_elim h1
      obtain ⟨hb2, hv2⟩ := rd_ok_elim h2
      refine ⟨hb2, ?_⟩
      rw [hv1, hv2]
      exact ((Except.ok.injEq _ _).mp h).symm

theorem rdSlice_ok_elim {d : List Nat} {i j : Nat} {l : List Nat}
    (h : rdSlice d i j = .ok l) :
    i ≤ j ∧ j ≤ d.length ∧ l = extract d i j := by
  unfold rdSlice at h
  by_cases hb : i ≤ j ∧ j ≤ d.length
  · rw [if_pos hb] at h
    exact ⟨hb.1, hb.2, ((Except.ok.injEq _ _).mp h).symm⟩
  · rw [if_neg hb] at h
    exact Except.noConfusion h

theorem getD_lt_256 {d : List Nat} (hbytes : ∀ b ∈ d, b < 256) (i : Nat) :
    d.getD i 0 < 256 := by
  rw [List.getD_eq_getElem?_getD]
  cases hg : d[i]? with
  | none => simp
  | some v => simpa using hbytes v (List.getElem?_mem hg)

theorem u8_small {n : Nat} (h : n < 256) : u8 n = n := Nat.mod_eq_of_lt h

theorem u16_small {n : Nat} (h : n < 65536) : u16 n = n := Nat.mod_eq_of_lt h

theorem u16be_pair {a b : Nat} (ha : a < 256) (hb : b < 256) :
    u16be (a * 256 + b) = [a, b] := by
  unfold u16be
  have h1 : (a * 256 + b) / 256 = a := by omega
  have h2 : (a * 256 + b) % 256 = b := by omega
  rw [h1, h2, Nat.mod_eq_of_lt ha]

theorem extract_self (d : List Nat) (a : Nat) : extract d a a = [] := by
  unfold extract
  refine List.drop_eq_nil_of_le ?_
  rw [List.length_take]
  exact Nat.min_le_left _ _

theorem extract_cons {d : List Nat} {a b : Nat} (h1 : a < b) (h2 : a < d.length) :
    extract d a b = d.getD a 0 :: extract d (a + 1) b := by
  unfold extract
  have hl : a < (d.take b).length := by simp [List.length_take]; omega
  rw [List.drop_eq_getElem_cons hl]
  congr 1
  rw [List.getElem_take]
  rw [List.getD_eq_getElem?_getD, List.getElem?_eq_getElem h2]
  rfl

theorem extract_append_mid {d : List Nat} {a b c : Nat}
    (h1 : a ≤ b) (h2 : b ≤ c) :
    extract d a b ++ extract d b c = extract d a c := by
  unfold extract
  have hbc : d.take b = (d.take c).take b := by rw [List.take_take, Nat.min_eq_left h2]
  rw [hbc]
  rcases Nat.le_total b d.length with hb | hb
  · have hblen : b ≤ (d.take c).length := by rw [List.length_take]; omega
    have hsplit : (d.take c).take b ++ ((d.take c).drop b) = d.take c :=
      List.take_append_drop b (d.take c)
    conv_rhs => rw [← hsplit]
    rw [List.drop_append_of_le_length (by rw [List.length_take, List.length_take]; omega)]
  · have hc : d.length ≤ c := le_trans hb h2
    rw [List.take_of_length_le hc, List.take_of_length_le hb,
        List.drop_eq_nil_of_le hb]
    simp

theorem ecsScanEnd_ge (d : List Nat) : ∀ fuel i, i ≤ ecsScanEnd d fuel i := by
  intro fuel
  induction fuel with
  | zero => intro i; simp [ecsScanEnd]
  | succ fuel ih =>
    intro i
    unfold ecsScanEnd
    by_cases h1 : i < d.length - 1
    · rw [if_pos h1]
      by_cases h2 : d.getD i 0 = 255
      · rw [if_pos h2]
        by_cases h3 : i + 1 ≥ d.length - 1 ∨ d.getD (i + 1) 0 ≠ 0
        · rw [if_pos h3]
        · rw [if_neg h3]
          exact le_trans (by omega) (ih (i + 2))
      · rw [if_neg h2]
        exact le_trans (by omega) (ih (i + 1))
    · rw [if_neg h1]

theorem ecsScanEnd_le (d : List Nat) :
    ∀ fuel i, i ≤ d.length → ecsScanEnd d fuel i ≤ d.length := by
  intro fuel
  induction fuel with
  | zero => intro i hi; simpa [ecsScanEnd] using hi
  | succ fuel ih =>
    intro i hi
    unfold ecsScanEnd
    by_cases h1 : i < d.length - 1
    · rw [if_pos h1]
      by_cases h2 : d.getD i 0 = 255
      · rw [if_pos h2]
        by_cases h3 : i + 1 ≥ d.length - 1 ∨ d.getD (i + 1) 0 ≠ 0
        · rw [if_pos h3]; omega
        · rw [if_neg h3]
          exact ih (i + 2) (by omega)
      · rw [if_neg h2]
        exact ih (i + 1) (by omega)
    · rw [if_neg h1]
      exact hi

theorem scanSpanEnd_ge (d : List Nat) :
    ∀ fuel off a b, off ≤ (scanSpanEnd d fuel off a b).1 := by
  intro fuel
  induction fuel with
  | zero => intro off a b; simp [scanSpanEnd]
  | succ fuel ih =>
    intro off a b
    unfold scanSpanEnd
    by_cases h1 : ecsScanEnd d (d.length + 1) off + 1 ≥ d.length ∨
        d.getD (ecsScanEnd d (d.length + 1) off + 1) 0 < 0xd0 ∨
        0xd7 < d.getD (ecsScanEnd d (d.length + 1) off + 1) 0
    · rw [if_pos h1]
      exact ecsScanEnd_ge d _ off
    · rw [if_neg h1]
      calc off ≤ ecsScanEnd d (d.length + 1) off := ecsScanEnd_ge d (d.length + 1) off
        _ ≤ ecsScanEnd d (d.length + 1) off + 2 := by omega
        _ ≤ _ := ih (ecsScanEnd d (d.length + 1) off + 2)
              (ecsScanEnd d (d.length + 1) off) (b + 1)

theorem scanSpanEnd_le (d : List Nat) :
    ∀ fuel off a b, off ≤ d.length → (scanSpanEnd d fuel off a b).1 ≤ d.length := by
  intro fuel
  induction fuel with
  | zero => intro off a b h; simpa [scanSpanEnd] using h
  | succ fuel ih =>
    intro off a b hoff
    rw [scanSpanEnd]
    have hle : ecsScanEnd d (d.length + 1) off ≤ d.length :=
      ecsScanEnd_le d (d.length + 1) off hoff
    by_cases h1 : ecsScanEnd d (d.length + 1) off + 1 ≥ d.length ∨
        d.getD (ecsScanEnd d (d.length + 1) off + 1) 0 < 0xd0 ∨
        0xd7 < d.getD (ecsScanEnd d (d.length + 1) off + 1) 0
    · rw [if_pos h1]
      exact hle
    · rw [if_neg h1]
      push_neg at h1
      obtain ⟨hx, -, -⟩ := h1
      exact ih (ecsScanEnd d (d.length + 1) off + 2)
        (ecsScanEnd d (d.length + 1) off) (b + 1) (Nat.lt_of_lt_of_le hx (le_refl _))

/-! ## Round-trip infrastructure (C1): generic helpers -/

theorem bind_ok_elim {α β : Type} {x : Except PErr α} {f : α → Except PErr β} {b : β}
    (h : x >>= f = .ok b) : ∃ a, x = .ok a ∧ f a = .ok b := by
  cases x with
  | error e =>
    simp only [Bind.bind, Except.bind] at h
    exact Except.noConfusion h
  | ok a => exact ⟨a, rfl, h⟩

theorem getD_set_self {α : Type} [Inhabited α] {l : List α} {i : Nat} {x : α}
    (h : i < l.length) : (l.set i x).getD i default = x := by
  rw [List.getD_eq_getElem?_getD, List.getElem?_set, if_pos rfl, if_pos h]
  rfl

theorem getD_set_ne {α : Type} [Inhabited α] {l : List α} {i j : Nat} {x : α}
    (h : i ≠ j) : (l.set i x).getD j default = l.getD j default := by
  rw [List.getD_eq_getElem?_getD, List.getElem?_set, if_neg h, ← List.getD_eq_getElem?_getD]

theorem getD_append_left {α : Type} [Inhabited α] {l l2 : List α} {i : Nat}
    (h : i < l.length) : (l ++ l2).getD i default = l.getD i default :=
  List.getD_append _ _ _ _ h

theorem getLast?_getD {α : Type} [Inhabited α] {l : List α} {x : α}
    (h : l.getLast? = some x) : l.getD (l.length - 1) default = x := by
  rw [List.getLast?_eq_getElem?] at h
  rw [List.getD_eq_getElem?_getD, h]
  rfl

theorem getLast?_pos {α : Type} {l : List α} {x : α}
    (h : l.getLast? = some x) : 0 < l.length := by
  cases l with
  | nil => exact Option.noConfusion h
  | cons a t => simp

theorem foldl_add_length : ∀ (l : List (List Nat)) (c : Nat),
    l.foldl (fun b x => b + x.length) c = c + (l.map List.length).sum := by
  intro l
  induction l with
  | nil => intro c; simp
  | cons a t ih =>
    intro c
    simp only [List.foldl_cons, List.map_cons, List.sum_cons]
    rw [ih]
    omega

theorem foldl_u16_add {α : Type} (w : α → Nat) : ∀ (l : List α) (c : Nat),
    c + (l.map w).sum ≤ 65535 →
    l.foldl (fun a t => u16 (a + w t)) c = c + (l.map w).sum := by
  intro l
  induction l with
  | nil => intro c h; simp
  | cons a t ih =>
    intro c h
    simp only [List.foldl_cons, List.map_cons, List.sum_cons] at h ⊢
    rw [show u16 (c + w a) = c + w a from u16_small (by omega), ih (c + w a) (by omega)]
    omega

theorem extract_length {d : List Nat} {a b : Nat} (h1 : a ≤ b) (h2 : b ≤ d.length) :
    (extract d a b).length = b - a := by
  unfold extract
  rw [List.length_drop, List.length_take]
  omega

theorem extract_zero_length (d : List Nat) : extract d 0 d.length = d := by
  unfold extract
  rw [List.take_length, List.drop_zero]

theorem sofReadComps_obs {d : List Nat} (hbytes : ∀ b ∈ d, b < 256) :
    ∀ (n off : Nat) (comps : List (Nat × Nat × Nat × Nat)),
    sofReadComps d off n = .ok comps →
    comps.length = n ∧
    (comps.map fun c => [u8 c.1, u8 (u8 (c.2.1 * 16) + c.2.2.1), u8 c.2.2.2]).flatten
      = extract d off (off + 3 * n) ∧
    (n = 0 ∨ off + 3 * n ≤ d.length) := by
  intro n
  induction n with
  | zero =>
    intro off comps h
    unfold sofReadComps at h
    obtain rfl : ([] : List (Nat × Nat × Nat × Nat)) = comps := (Except.ok.injEq _ _).mp h
    refine ⟨rfl, ?_, Or.inl rfl⟩
    rw [Nat.mul_zero, Nat.add_zero, extract_self]
    rfl
  | succ n ih =>
    intro off comps h
    unfold sofReadComps at h
    obtain ⟨cId, h1, h⟩ := bind_ok_elim h
    obtain ⟨hv, h2, h⟩ := bind_ok_elim h
    obtain ⟨qs, h3, h⟩ := bind_ok_elim h
    obtain ⟨rest, h4, h⟩ := bind_ok_elim h
    obtain rfl : (cId, hv / 16, hv % 16, qs) :: rest = comps := (Except.ok.injEq _ _).mp h
    obtain ⟨hb1, hv1⟩ := rd_ok_elim h1
    obtain ⟨hb2, hv2⟩ := rd_ok_elim h2
    obtain ⟨hb3, hv3⟩ := rd_ok_elim h3
    obtain ⟨ihlen, ihser, ihbnd⟩ := ih (off + 3) rest h4
    have c1 : cId < 256 := hv1 ▸ getD_lt_256 hbytes off
    have c2 : hv < 256 := hv2 ▸ getD_lt_256 hbytes (off + 1)
    have c3 : qs < 256 := hv3 ▸ getD_lt_256 hbytes (off + 2)
    refine ⟨by simp [ihlen], ?_, by omega⟩
    have e0 : off + 3 * (n + 1) = off + 3 + 3 * n := by omega
    rw [e0, extract_cons (by omega) hb1, extract_cons (by omega) (by omega : off + 1 < d.length),
        extract_cons (by omega) (by omega : off + 2 < d.length)]
    simp only [List.map_cons, List.flatten_cons]
    rw [ihser, hv1, hv2, hv3]
    have m2 : u8 (u8 (hv / 16 * 16) + hv % 16) = hv := by
      rw [u8_small (show hv / 16 * 16 < 256 by omega),
          show hv / 16 * 16 + hv % 16 = hv from by omega]
      exact u8_small c2
    rw [u8_small c1, m2, u8_small c3]
    rfl

theorem sofComponents_length (nr nc : Nat) (l : List (Nat × Nat × Nat × Nat)) :
    (sofComponents nr nc l).length = l.length := by
  simp [sofComponents]

theorem sofComponents_ser (nr nc : Nat) (l : List (Nat × Nat × Nat × Nat)) :
    (sofComponents nr nc l).map sofCompSer
      = l.map fun c => [u8 c.1, u8 (u8 (c.2.1 * 16) + c.2.2.1), u8 c.2.2.2] := by
  unfold sofComponents
  rw [List.map_map]
  apply List.map_congr_left
  intro c _
  rfl

theorem startOfFrame_obs {d : List Nat} {st st' : MDesc} {i sLen m : Nat}
    (hbytes : ∀ b ∈ d, b < 256)
    (hok : startOfFrame d st i sLen m = .ok st')
    (hm : m = d.getD i 0 * 256 + d.getD (i + 1) 0)
    (hlo : 0xffc0 ≤ m) (hhi : m ≤ 0xffcf)
    (hlen : sLen = d.getD (i + 2) 0 * 256 + d.getD (i + 3) 0)
    (hcanon : sLen = 8 + 3 * d.getD (i + 9) 0) :
    ∃ frm,
      st' = { st with frames := st.frames ++ [frm],
                      segments := st.segments ++ [.frameRef st.frames.length],
                      state := .scan1 } ∧
      serializeFrame frm = extract d i (i + sLen + 2) ∧
      i + sLen + 2 ≤ d.length := by
  simp only [startOfFrame] at hok
  split at hok
  · exact Except.noConfusion hok
  split at hok
  · exact Except.noConfusion hok
  obtain ⟨nc, h1, hok⟩ := bind_ok_elim hok
  split at hok
  · exact Except.noConfusion hok
  obtain ⟨sp, h2, hok⟩ := bind_ok_elim hok
  obtain ⟨nLines, h3, hok⟩ := bind_ok_elim hok
  obtain ⟨nSamplesLine, h4, hok⟩ := bind_ok_elim hok
  obtain ⟨comps, h5, hok⟩ := bind_ok_elim hok
  split at hok
  · exact Except.noConfusion hok
  split at hok
  · exact Except.noConfusion hok
  split at hok
  · exact Except.noConfusion hok
  obtain rfl := (Except.ok.injEq _ _).mp hok
  obtain ⟨hb1, he1⟩ := rd_ok_elim h1
  obtain ⟨hb2, he2⟩ := rd_ok_elim h2
  obtain ⟨hb3, he3⟩ := rd16_ok_elim h3
  obtain ⟨hb4, he4⟩ := rd16_ok_elim h4
  obtain ⟨hclen, hcser, hcbnd⟩ := sofReadComps_obs hbytes nc (i + 10) comps h5
  have hnc : nc = d.getD (i + 4 + 5) 0 := he1.symm
  have hnc9 : nc = d.getD (i + 9) 0 := by rw [hnc]
  have hnc256 : nc < 256 := by rw [hnc9]; exact getD_lt_256 hbytes (i + 9)
  have egi : d.getD i 0 < 256 := getD_lt_256 hbytes i
  have egi1 : d.getD (i + 1) 0 < 256 := getD_lt_256 hbytes (i + 1)
  have egi2 : d.getD (i + 2) 0 < 256 := getD_lt_256 hbytes (i + 2)
  have egi3 : d.getD (i + 3) 0 < 256 := getD_lt_256 hbytes (i + 3)
  have egi5 : d.getD (i + 5) 0 < 256 := getD_lt_256 hbytes (i + 5)
  have egi6 : d.getD (i + 6) 0 < 256 := getD_lt_256 hbytes (i + 6)
  have egi7 : d.getD (i + 7) 0 < 256 := getD_lt_256 hbytes (i + 7)
  have egi8 : d.getD (i + 8) 0 < 256 := getD_lt_256 hbytes (i + 8)
  have hsp : sp < 256 := he2 ▸ getD_lt_256 hbytes (i + 4)
  refine ⟨_, rfl, ?_, by omega⟩
  simp only [serializeFrame, actualLines, sofComponents_length, sofComponents_ser, hclen]
  have p1 : u16be (u16 (65472 + m % 16)) = [d.getD i 0, d.getD (i + 1) 0] := by
    rw [show 65472 + m % 16 = m from by omega, u16_small (by omega), hm]
    exact u16be_pair egi egi1
  have p2 : u16be (u16 (nc * 3 + 8)) = [d.getD (i + 2) 0, d.getD (i + 3) 0] := by
    rw [show nc * 3 + 8 = sLen from by omega, u16_small (by omega), hlen]
    exact u16be_pair egi2 egi3
  have p4 : u16be nLines = [d.getD (i + 5) 0, d.getD (i + 6) 0] := by
    rw [he3]
    exact u16be_pair egi5 egi6
  have p5 : u16be nSamplesLine = [d.getD (i + 7) 0, d.getD (i + 8) 0] := by
    rw [he4]
    exact u16be_pair egi7 egi8
  have e0 : i + sLen + 2 = i + 10 + 3 * nc := by omega
  rw [e0]
  rw [extract_cons (by omega) (by omega), extract_cons (by omega) (by omega),
      extract_cons (by omega) (by omega), extract_cons (by omega) (by omega),
      extract_cons (by omega) (by omega), extract_cons (by omega) (by omega),
      extract_cons (by omega) (by omega), extract_cons (by omega) (by omega),
      extract_cons (by omega) (by omega), extract_cons (by omega) (by omega)]
  rw [show i + 1 + 1 = i + 2 from by omega, show i + 2 + 1 = i + 3 from by omega,
      show i + 3 + 1 = i + 4 from by omega, show i + 4 + 1 = i + 5 from by omega,
      show i + 5 + 1 = i + 6 from by omega, show i + 6 + 1 = i + 7 from by omega,
      show i + 7 + 1 = i + 8 from by omega, show i + 8 + 1 = i + 9 from by omega,
      show i + 9 + 1 = i + 10 from by omega]
  rw [hcser]
  simp [p1, p2, p4, p5, u8_small hsp, u8_small hnc256]
  exact ⟨by rw [← List.getD_eq_getElem?_getD]; exact he2.symm,
         by rw [← List.getD_eq_getElem?_getD]; exact hnc9⟩

theorem mem_extract {d : List Nat} {a b x : Nat} (h : x ∈ extract d a b) : x ∈ d := by
  unfold extract at h
  exact List.take_subset b d (List.drop_subset a _ h)

theorem u8_split_byte {x : Nat} (hx : x < 256) :
    u8 (u8 (x / 16 * 16) + x % 16) = x := by
  rw [u8_small (show x / 16 * 16 < 256 by omega),
      show x / 16 * 16 + x % 16 = x from by omega]
  exact u8_small hx

theorem qtReadValues_obs {d : List Nat} (hbytes : ∀ b ∈ d, b < 256) {pq : Nat} :
    ∀ (n off : Nat) (values : List Nat) (out : Nat),
    qtReadValues d pq off n = .ok (values, out) →
    out = off + n * (if pq = 0 then 1 else 2) ∧
    (if pq = 0 then values.map u8
     else (values.map fun v => u16be (u16 v)).flatten) = extract d off out ∧
    (n = 0 ∨ out ≤ d.length) := by
  intro n
  induction n with
  | zero =>
    intro off values out h
    unfold qtReadValues at h
    obtain ⟨rfl, rfl⟩ := (Prod.mk.injEq _ _ _ _).mp ((Except.ok.injEq _ _).mp h)
    refine ⟨by omega, ?_, Or.inl rfl⟩
    rw [extract_self]
    split <;> rfl
  | succ n ih =>
    intro off values out h
    unfold qtReadValues at h
    by_cases hpq : pq = 0
    · rw [if_pos hpq] at h
      obtain ⟨v, h1, h⟩ := bind_ok_elim h
      obtain ⟨ro, h2, h⟩ := bind_ok_elim h
      obtain ⟨rest, o⟩ := ro
      obtain ⟨rfl, rfl⟩ := (Prod.mk.injEq _ _ _ _).mp ((Except.ok.injEq _ _).mp h)
      obtain ⟨hb1, he1⟩ := rd_ok_elim h1
      obtain ⟨iho, ihser, ihbnd⟩ := ih (off + 1) rest o h2
      simp only [if_pos hpq] at iho ihser ⊢
      have hv : v < 256 := he1 ▸ getD_lt_256 hbytes off
      refine ⟨by omega, ?_, by omega⟩
      rw [extract_cons (by omega) hb1, List.map_cons, u8_small hv, ihser, he1]
    · rw [if_neg hpq] at h
      obtain ⟨v, h1, h⟩ := bind_ok_elim h
      obtain ⟨ro, h2, h⟩ := bind_ok_elim h
      obtain ⟨rest, o⟩ := ro
      obtain ⟨rfl, rfl⟩ := (Prod.mk.injEq _ _ _ _).mp ((Except.ok.injEq _ _).mp h)
      obtain ⟨hb1, he1⟩ := rd16_ok_elim h1
      obtain ⟨iho, ihser, ihbnd⟩ := ih (off + 2) rest o h2
      simp only [if_neg hpq] at iho ihser ⊢
      have hg0 : d.getD off 0 < 256 := getD_lt_256 hbytes off
      have hg1 : d.getD (off + 1) 0 < 256 := getD_lt_256 hbytes (off + 1)
      refine ⟨by omega, ?_, by omega⟩
      rw [extract_cons (by omega) (by omega), extract_cons (by omega) hb1,
          show off + 1 + 1 = off + 2 from by omega]
      rw [List.map_cons, List.flatten_cons, ihser,
          show u16 v = v from u16_small (by omega), he1, u16be_pair hg0 hg1]
      rfl

theorem qtLoop_obs {d : List Nat} (hbytes : ∀ b ∈ d, b < 256) {endOff : Nat} :
    ∀ (fuel off : Nat) (acc : List QTbl) (qdefs : List QDef)
      (tables : List QTbl) (qdefs2 : List QDef) (off2 : Nat),
    qtLoop d endOff fuel off acc qdefs = .ok (tables, qdefs2, off2) →
    ∃ ts, tables = acc ++ ts ∧
      (ts.map qtblSer).flatten = extract d off off2 ∧
      (ts.map fun t => 65 + 64 * t.pq).sum = off2 - off ∧
      off + 65 ≤ off2 ∧ off2 ≤ d.length := by
  intro fuel
  induction fuel with
  | zero =>
    intro off acc qdefs tables qdefs2 off2 h
    exact Except.noConfusion h
  | succ fuel ih =>
    intro off acc qdefs tables qdefs2 off2 h
    unfold qtLoop at h
    obtain ⟨pqtq, h1, h⟩ := bind_ok_elim h
    simp only [] at h
    split at h
    · exact Except.noConfusion h
    split at h
    · exact Except.noConfusion h
    obtain ⟨vo, h2, h⟩ := bind_ok_elim h
    obtain ⟨values, off1⟩ := vo
    obtain ⟨hb1, he1⟩ := rd_ok_elim h1
    have hq : pqtq < 256 := he1 ▸ getD_lt_256 hbytes off
    obtain ⟨ho1, hser1, hbnd1⟩ := qtReadValues_obs hbytes 64 (off + 1) values off1 h2
    have hw1 : off1 = off + 1 + 64 * (if pqtq / 16 = 0 then 1 else 2) := ho1
    have hoffle : off < off1 := by
      have h' := hw1
      split at h' <;> omega
    have htbl : qtblSer ⟨pqtq / 16, pqtq % 16, values⟩ = extract d off off1 := by
      rw [show qtblSer ⟨pqtq / 16, pqtq % 16, values⟩
          = [u8 (u8 (pqtq / 16 * 16) + pqtq % 16)] ++
            (if pqtq / 16 = 0 then values.map u8
             else (values.map fun v => u16be (u16 v)).flatten) from rfl]
      rw [u8_split_byte hq, hser1, ← he1, List.singleton_append,
          ← extract_cons hoffle hb1]
    split at h
    · have hp := (Except.ok.injEq _ _).mp h
      obtain ⟨e1, e2⟩ := (Prod.mk.injEq _ _ _ _).mp hp
      obtain ⟨e3, e4⟩ := (Prod.mk.injEq _ _ _ _).mp e2
      subst e1
      subst e3
      subst e4
      refine ⟨[⟨pqtq / 16, pqtq % 16, values⟩], rfl, ?_, ?_,
        by have h' := hw1; split at h' <;> omega, by omega⟩
      · simp only [List.map_cons, List.map_nil, List.flatten_cons, List.flatten_nil,
                   List.append_nil]
        exact htbl
      · simp only [List.map_cons, List.map_nil, List.sum_cons, List.sum_nil]
        split at hw1 <;> omega
    · obtain ⟨ts, hts, hser2, hsum2, hge2, hle2⟩ :=
        ih off1 (acc ++ [⟨pqtq / 16, pqtq % 16, values⟩]) _ tables qdefs2 off2 h
      refine ⟨⟨pqtq / 16, pqtq % 16, values⟩ :: ts, by rw [hts]; simp, ?_, ?_, by omega, hle2⟩
      · simp only [List.map_cons, List.flatten_cons]
        rw [htbl, hser2, extract_append_mid (by omega) (by omega)]
      · simp only [List.map_cons, List.sum_cons]
        split at hw1 <;> omega

theorem qt_foldl_len : ∀ (l : List QTbl) (c : Nat),
    c + (l.map fun t => 65 + 64 * t.pq).sum ≤ 65535 →
    l.foldl (fun a t => u16 (a + 65 + 64 * t.pq)) c
      = c + (l.map fun t => 65 + 64 * t.pq).sum := by
  intro l
  induction l with
  | nil => intro c h; simp
  | cons a t ih =>
    intro c h
    simp only [List.foldl_cons, List.map_cons, List.sum_cons] at h ⊢
    rw [show u16 (c + 65 + 64 * a.pq) = c + 65 + 64 * a.pq from u16_small (by omega),
        ih (c + 65 + 64 * a.pq) (by omega)]
    omega

theorem dqt_obs {d : List Nat} {st st2 : MDesc} {i sLen : Nat}
    (hbytes : ∀ b ∈ d, b < 256)
    (hok : defineQuantizationTable d st i sLen = .ok st2)
    (hm : d.getD i 0 = 255) (hm1 : d.getD (i + 1) 0 = 219)
    (hlen : sLen = d.getD (i + 2) 0 * 256 + d.getD (i + 3) 0) :
    ∃ tables qdefs2,
      st2 = { st with qdefs := qdefs2, segments := st.segments ++ [.qt tables] } ∧
      serializeQt tables = extract d i (i + sLen + 2) ∧
      i + sLen + 2 ≤ d.length := by
  unfold defineQuantizationTable at hok
  obtain ⟨tqo, h1, hok⟩ := bind_ok_elim hok
  obtain ⟨tables, qo⟩ := tqo
  obtain ⟨qdefs2, off2⟩ := qo
  simp only [] at hok
  split at hok
  · exact Except.noConfusion hok
  rename_i hoff
  obtain rfl := (Except.ok.injEq _ _).mp hok
  have hoff2 : off2 = i + 2 + sLen := by omega
  obtain ⟨ts, hts, hser, hsum, hge, hle⟩ :=
    qtLoop_obs hbytes (sLen + 2) (i + 4) [] st.qdefs tables qdefs2 off2 h1
  rw [List.nil_append] at hts
  subst hts
  have hg2 : d.getD (i + 2) 0 < 256 := getD_lt_256 hbytes (i + 2)
  have hg3 : d.getD (i + 3) 0 < 256 := getD_lt_256 hbytes (i + 3)
  have hsum2 : ((tables.map fun t => 65 + 64 * t.pq).sum) = sLen - 2 := by omega
  have hfold : tables.foldl (fun a t => u16 (a + 65 + 64 * t.pq)) 2 = sLen := by
    rw [qt_foldl_len tables 2 (by omega), hsum2]
    omega
  refine ⟨tables, qdefs2, rfl, ?_, by omega⟩
  unfold serializeQt
  rw [hfold, hlen, u16be_pair hg2 hg3, ← hlen]
  rw [hoff2, show i + 2 + sLen = i + sLen + 2 from by omega] at hser
  rw [extract_cons (by omega) (by omega), extract_cons (by omega) (by omega),
      extract_cons (by omega) (by omega), extract_cons (by omega) (by omega),
      show i + 1 + 1 = i + 2 from by omega, show i + 2 + 1 = i + 3 from by omega,
      show i + 3 + 1 = i + 4 from by omega]
  rw [hser, hm, hm1]
  rfl

theorem htLens_obs {d : List Nat} :
    ∀ (n off : Nat) (lens : List Nat),
    htLens d off n = .ok lens →
    lens = extract d off (off + n) ∧ lens.length = n ∧ (n = 0 ∨ off + n ≤ d.length) := by
  intro n
  induction n with
  | zero =>
    intro off lens h
    unfold htLens at h
    obtain rfl := (Except.ok.injEq _ _).mp h
    refine ⟨?_, rfl, Or.inl rfl⟩
    rw [Nat.add_zero, extract_self]
  | succ n ih =>
    intro off lens h
    unfold htLens at h
    obtain ⟨v, h1, h⟩ := bind_ok_elim h
    obtain ⟨rest, h2, h⟩ := bind_ok_elim h
    obtain rfl := (Except.ok.injEq _ _).mp h
    obtain ⟨hb1, he1⟩ := rd_ok_elim h1
    obtain ⟨ihv, ihlen, ihbnd⟩ := ih (off + 1) rest h2
    refine ⟨?_, by simp [ihlen], by omega⟩
    rw [show off + (n + 1) = off + 1 + n from by omega,
        extract_cons (by omega) hb1, ihv, he1]

theorem htReadVals_obs {d : List Nat} :
    ∀ (lens : List Nat) (voff : Nat) (vals : List (List Nat)) (out : Nat),
    htReadVals d voff lens = .ok (vals, out) →
    out = voff + lens.sum ∧ vals.map List.length = lens ∧
    vals.flatten = extract d voff out ∧ (lens = [] ∨ out ≤ d.length) := by
  intro lens
  induction lens with
  | nil =>
    intro voff vals out h
    unfold htReadVals at h
    obtain ⟨rfl, rfl⟩ := (Prod.mk.injEq _ _ _ _).mp ((Except.ok.injEq _ _).mp h)
    exact ⟨by simp, rfl, by rw [extract_self]; rfl, Or.inl rfl⟩
  | cons li rest ih =>
    intro voff vals out h
    unfold htReadVals at h
    obtain ⟨sl, h1, h⟩ := bind_ok_elim h
    obtain ⟨oo, h2, h⟩ := bind_ok_elim h
    obtain ⟨others, o⟩ := oo
    obtain ⟨rfl, rfl⟩ := (Prod.mk.injEq _ _ _ _).mp ((Except.ok.injEq _ _).mp h)
    obtain ⟨hle1, hle2, hsl⟩ := rdSlice_ok_elim h1
    obtain ⟨iho, ihlen, ihser, ihbnd⟩ := ih (voff + li) others o h2
    have hsllen : sl.length = li := by
      rw [hsl, extract_length (by omega) hle2]
      omega
    have hbnd : o ≤ d.length := by
      rcases ihbnd with hnil | hle
      · subst hnil
        simp at iho
        omega
      · exact hle
    refine ⟨by rw [List.sum_cons]; omega, by simp [hsllen, ihlen], ?_, Or.inr hbnd⟩
    simp only [List.flatten_cons]
    rw [hsl, ihser, extract_append_mid (by omega) (by omega)]

theorem ht_foldl_len : ∀ (l : List HTbl) (c : Nat),
    c + (l.map fun t => 17 + (t.data.map List.length).sum).sum ≤ 65535 →
    l.foldl (fun a t => u16 (a + (t.data.foldl (fun b x => b + x.length) 17))) c
      = c + (l.map fun t => 17 + (t.data.map List.length).sum).sum := by
  intro l
  induction l with
  | nil => intro c h; simp
  | cons a t ih =>
    intro c h
    simp only [List.foldl_cons, List.map_cons, List.sum_cons] at h ⊢
    rw [foldl_add_length a.data 17,
        show u16 (c + (17 + (a.data.map List.length).sum))
          = c + (17 + (a.data.map List.length).sum) from u16_small (by omega),
        ih (c + (17 + (a.data.map List.length).sum)) (by omega)]
    omega

theorem htLoop_obs {d : List Nat} (hbytes : ∀ b ∈ d, b < 256) {endOff : Nat} :
    ∀ (fuel off : Nat) (acc : List HTbl) (hdefs : List HDefM)
      (tables : List HTbl) (hdefs2 : List HDefM) (off2 : Nat),
    htLoop d endOff fuel off acc hdefs = .ok (tables, hdefs2, off2) →
    ∃ ts, tables = acc ++ ts ∧
      (ts.map htblSer).flatten = extract d off off2 ∧
      (ts.map fun t => 17 + (t.data.map List.length).sum).sum = off2 - off ∧
      off + 17 ≤ off2 ∧ off2 ≤ d.length := by
  intro fuel
  induction fuel with
  | zero =>
    intro off acc hdefs tables hdefs2 off2 h
    exact Except.noConfusion h
  | succ fuel ih =>
    intro off acc hdefs tables hdefs2 off2 h
    unfold htLoop at h
    obtain ⟨tcth, h1, h⟩ := bind_ok_elim h
    simp only [] at h
    split at h
    · exact Except.noConfusion h
    obtain ⟨lens, h2, h⟩ := bind_ok_elim h
    obtain ⟨vo, h3, h⟩ := bind_ok_elim h
    obtain ⟨vals, voff1⟩ := vo
    obtain ⟨root, h4, h⟩ := bind_ok_elim h
    obtain ⟨hb1, he1⟩ := rd_ok_elim h1
    have hq : tcth < 256 := he1 ▸ getD_lt_256 hbytes off
    obtain ⟨hlens, hlenslen, hlensbnd⟩ := htLens_obs 16 (off + 1) lens h2
    obtain ⟨hvo, hvlen, hvser, hvbnd⟩ := htReadVals_obs lens (off + 17) vals voff1 h3
    have hlens17 : lens = extract d (off + 1) (off + 17) := by
      rw [hlens, show off + 1 + 16 = off + 17 from by omega]
    have hoffle : off < voff1 := by omega
    have hvbnd2 : voff1 ≤ d.length := by
      rcases hvbnd with hnil | hle
      · rcases hlensbnd with h16 | hbd
        · exact absurd h16 (by omega)
        · have : lens.sum = 0 := by rw [hnil]; rfl
          omega
      · exact hle
    have hlen8 : vals.map (fun l => u8 l.length) = lens := by
      have hmm : vals.map (fun l => u8 l.length) = (vals.map List.length).map u8 := by
        rw [List.map_map]
        rfl
      have hall : ∀ x ∈ lens, u8 x = x := fun x hx =>
        u8_small (hbytes x (mem_extract (hlens17 ▸ hx)))
      rw [hmm, hvlen]
      calc lens.map u8 = lens.map id := List.map_congr_left hall
        _ = lens := List.map_id lens
    have htbl : htblSer ⟨tcth / 16, tcth % 16, vals⟩ = extract d off voff1 := by
      rw [show htblSer ⟨tcth / 16, tcth % 16, vals⟩
          = [u8 (u8 (tcth / 16 * 16) + tcth % 16)] ++
            vals.map (fun l => u8 l.length) ++ vals.flatten from rfl]
      rw [u8_split_byte hq, hlen8, hvser, hlens17, List.append_assoc,
          extract_append_mid (by omega) (by omega), ← he1, List.singleton_append,
          ← extract_cons hoffle hb1]
    have hwt : 17 + ((⟨tcth / 16, tcth % 16, vals⟩ : HTbl).data.map List.length).sum
        = voff1 - off := by
      simp only
      rw [hvlen]
      omega
    split at h
    · have hp := (Except.ok.injEq _ _).mp h
      obtain ⟨e1, e2⟩ := (Prod.mk.injEq _ _ _ _).mp hp
      obtain ⟨e3, e4⟩ := (Prod.mk.injEq _ _ _ _).mp e2
      subst e1
      subst e3
      subst e4
      refine ⟨[⟨tcth / 16, tcth % 16, vals⟩], rfl, ?_, ?_, by omega, hvbnd2⟩
      · simp only [List.map_cons, List.map_nil, List.flatten_cons, List.flatten_nil,
                   List.append_nil]
        exact htbl
      · simp only [List.map_cons, List.map_nil, List.sum_cons, List.sum_nil]
        rw [hvlen]
        omega
    · obtain ⟨ts, hts, hser2, hsum2, hge2, hle2⟩ :=
        ih voff1 (acc ++ [⟨tcth / 16, tcth % 16, vals⟩]) _ tables hdefs2 off2 h
      refine ⟨⟨tcth / 16, tcth % 16, vals⟩ :: ts, by rw [hts]; simp, ?_, ?_, by omega, hle2⟩
      · simp only [List.map_cons, List.flatten_cons]
        rw [htbl, hser2, extract_append_mid (by omega) (by omega)]
      · simp only [List.map_cons, List.sum_cons]
        rw [hvlen]
        omega

theorem dht_obs {d : List Nat} {st st2 : MDesc} {i sLen : Nat}
    (hbytes : ∀ b ∈ d, b < 256)
    (hok : defineHuffmanTable d st i sLen = .ok st2)
    (hm : d.getD i 0 = 255) (hm1 : d.getD (i + 1) 0 = 196)
    (hlen : sLen = d.getD (i + 2) 0 * 256 + d.getD (i + 3) 0) :
    ∃ tables hdefs2,
      st2 = { st with hdefs := hdefs2, segments := st.segments ++ [.ht tables] } ∧
      serializeHt tables = extract d i (i + sLen + 2) ∧
      i + sLen + 2 ≤ d.length := by
  unfold defineHuffmanTable at hok
  obtain ⟨tho, h1, hok⟩ := bind_ok_elim hok
  obtain ⟨tables, qo⟩ := tho
  obtain ⟨hdefs2, off2⟩ := qo
  simp only [] at hok
  split at hok
  · exact Except.noConfusion hok
  rename_i hoff
  obtain rfl := (Except.ok.injEq _ _).mp hok
  have hoff2 : off2 = i + 2 + sLen := by omega
  obtain ⟨ts, hts, hser, hsum, hge, hle⟩ :=
    htLoop_obs hbytes (sLen + 2) (i + 4) [] st.hdefs tables hdefs2 off2 h1
  rw [List.nil_append] at hts
  subst hts
  have hg2 : d.getD (i + 2) 0 < 256 := getD_lt_256 hbytes (i + 2)
  have hg3 : d.getD (i + 3) 0 < 256 := getD_lt_256 hbytes (i + 3)
  have hsum2 : ((tables.map fun t => 17 + (t.data.map List.length).sum).sum) = sLen - 2 := by
    omega
  have hfold : tables.foldl
      (fun a t => u16 (a + (t.data.foldl (fun b l => b + l.length) 17))) 2 = sLen := by
    rw [ht_foldl_len tables 2 (by omega), hsum2]
    omega
  refine ⟨tables, hdefs2, rfl, ?_, by omega⟩
  unfold serializeHt
  rw [hfold, hlen, u16be_pair hg2 hg3, ← hlen]
  rw [hoff2, show i + 2 + sLen = i + sLen + 2 from by omega] at hser
  rw [extract_cons (by omega) (by omega), extract_cons (by omega) (by omega),
      extract_cons (by omega) (by omega), extract_cons (by omega) (by omega),
      show i + 1 + 1 = i + 2 from by omega, show i + 2 + 1 = i + 3 from by omega,
      show i + 3 + 1 = i + 4 from by omega]
  rw [hser, hm, hm1]
  rfl

theorem dri_obs {d : List Nat} {st st2 : MDesc} {i sLen : Nat}
    (hbytes : ∀ b ∈ d, b < 256)
    (hok : defineRestartInterval d st i sLen = .ok st2)
    (hm : d.getD i 0 = 255) (hm1 : d.getD (i + 1) 0 = 221)
    (hlen4 : d.getD (i + 2) 0 = 0) (hlen5 : d.getD (i + 3) 0 = 4) :
    ∃ interval,
      st2 = { st with nMcuRST := interval, segments := st.segments ++ [.ri interval] } ∧
      serializeRi interval = extract d i (i + 6) ∧
      i + 6 ≤ d.length := by
  unfold defineRestartInterval at hok
  obtain ⟨interval, h1, hok⟩ := bind_ok_elim hok
  cases hg : st.frames.getLast? with
  | none => rw [hg] at hok; exact Except.noConfusion hok
  | some frm =>
    rw [hg] at hok
    simp only [] at hok
    split at hok
    · exact Except.noConfusion hok
    obtain ⟨u, h2, hok⟩ := bind_ok_elim hok
    obtain rfl := (Except.ok.injEq _ _).mp hok
    obtain ⟨hb1, he1⟩ := rd16_ok_elim h1
    have hg4 : d.getD (i + 4) 0 < 256 := getD_lt_256 hbytes (i + 4)
    have hg5 : d.getD (i + 5) 0 < 256 := getD_lt_256 hbytes (i + 5)
    have he1' : interval = d.getD (i + 4) 0 * 256 + d.getD (i + 5) 0 := by rw [he1]
    refine ⟨interval, rfl, ?_, by omega⟩
    unfold serializeRi
    rw [show u16 interval = interval from u16_small (by omega), he1', u16be_pair hg4 hg5]
    rw [extract_cons (by omega) (by omega), extract_cons (by omega) (by omega),
        extract_cons (by omega) (by omega), extract_cons (by omega) (by omega),
        extract_cons (by omega) (by omega), extract_cons (by omega) (by omega),
        show i + 1 + 1 = i + 2 from by omega, show i + 2 + 1 = i + 3 from by omega,
        show i + 3 + 1 = i + 4 from by omega, show i + 4 + 1 = i + 5 from by omega,
        show i + 5 + 1 = i + 6 from by omega, extract_self]
    rw [hm, hm1, hlen4, hlen5]
    rfl

theorem serializeSeg_append_frame {frames : List MFrame} {f : MFrame} {seg : MSeg}
    (hwf : PerSegWF frames seg) :
    serializeSeg (frames ++ [f]) seg = serializeSeg frames seg := by
  obtain ⟨h1, h2⟩ := hwf
  cases seg with
  | frameRef fi =>
    simp only [serializeSeg]
    rw [getD_append_left (h1 fi rfl)]
  | scanRef fi si =>
    simp only [serializeSeg]
    rw [getD_append_left (h2 fi si rfl).1]
  | qt t => rfl
  | ht t => rfl
  | ri n => rfl
  | com t => rfl
  | dnl n b => rfl

theorem serializeSeg_set_scans {frames : List MFrame} {frm : MFrame} {sc : MScan} {seg : MSeg}
    (hlast : frames.getLast? = some frm)
    (hwf : PerSegWF frames seg) :
    serializeSeg (frames.set (frames.length - 1) { frm with scans := frm.scans ++ [sc] }) seg
      = serializeSeg frames seg := by
  obtain ⟨h1, h2⟩ := hwf
  have hpos := getLast?_pos hlast
  have hget := getLast?_getD hlast
  cases seg with
  | frameRef fi =>
    simp only [serializeSeg]
    by_cases hfi : frames.length - 1 = fi
    · subst hfi
      rw [getD_set_self (by omega), hget]
      rfl
    · rw [getD_set_ne hfi]
  | scanRef fi si =>
    simp only [serializeSeg]
    by_cases hfi : frames.length - 1 = fi
    · subst hfi
      rw [getD_set_self (by omega), hget]
      have hsi : si < frm.scans.length := by
        have h := (h2 _ si rfl).2
        rwa [hget] at h
      show serializeScan ((frm.scans ++ [sc]).getD si default)
        = serializeScan (frm.scans.getD si default)
      rw [getD_append_left hsi]
    · rw [getD_set_ne hfi]
  | qt t => rfl
  | ht t => rfl
  | ri n => rfl
  | com t => rfl
  | dnl n b => rfl

theorem perSegWF_append_frame {frames : List MFrame} {frm : MFrame} {seg : MSeg}
    (h : PerSegWF frames seg) : PerSegWF (frames ++ [frm]) seg := by
  obtain ⟨h1, h2⟩ := h
  constructor
  · intro f hf
    have := h1 f hf
    rw [List.length_append]
    omega
  · intro f s hf
    obtain ⟨hl, hs⟩ := h2 f s hf
    refine ⟨by rw [List.length_append]; omega, ?_⟩
    rw [getD_append_left hl]
    exact hs

theorem perSegWF_new_frameRef (frames : List MFrame) (frm : MFrame) :
    PerSegWF (frames ++ [frm]) (.frameRef frames.length) := by
  constructor
  · intro f hf
    obtain rfl := (MSeg.frameRef.injEq _ _).mp hf
    rw [List.length_append]
    simp
  · intro f s hf
    exact MSeg.noConfusion hf

theorem perSegWF_set_scans {frames : List MFrame} {frm : MFrame} {sc : MScan} {seg : MSeg}
    (hlast : frames.getLast? = some frm)
    (h : PerSegWF frames seg) :
    PerSegWF (frames.set (frames.length - 1) { frm with scans := frm.scans ++ [sc] }) seg := by
  obtain ⟨h1, h2⟩ := h
  have hget := getLast?_getD hlast
  have hpos := getLast?_pos hlast
  constructor
  · intro f hf
    rw [List.length_set]
    exact h1 f hf
  · intro f s hf
    obtain ⟨hl, hs⟩ := h2 f s hf
    rw [List.length_set]
    refine ⟨hl, ?_⟩
    by_cases hfi : frames.length - 1 = f
    · subst hfi
      rw [getD_set_self (by omega)]
      rw [hget] at hs
      show s < (frm.scans ++ [sc]).length
      rw [List.length_append]
      omega
    · rw [getD_set_ne hfi]
      exact hs

theorem perSegWF_new_scanRef {frames : List MFrame} {frm : MFrame} (sc : MScan)
    (hlast : frames.getLast? = some frm) :
    PerSegWF (frames.set (frames.length - 1) { frm with scans := frm.scans ++ [sc] })
      (.scanRef (frames.length - 1) frm.scans.length) := by
  have hpos := getLast?_pos hlast
  constructor
  · intro f hf
    exact MSeg.noConfusion hf
  · intro f s hf
    obtain ⟨rfl, rfl⟩ := (MSeg.scanRef.injEq _ _ _ _).mp hf
    rw [List.length_set, getD_set_self (by omega)]
    refine ⟨by omega, ?_⟩
    show frm.scans.length < (frm.scans ++ [sc]).length
    rw [List.length_append]
    simp

theorem perSegWF_qt (frames : List MFrame) (t : List QTbl) : PerSegWF frames (.qt t) :=
  ⟨fun _ hf => MSeg.noConfusion hf, fun _ _ hf => MSeg.noConfusion hf⟩

theorem perSegWF_ht (frames : List MFrame) (t : List HTbl) : PerSegWF frames (.ht t) :=
  ⟨fun _ hf => MSeg.noConfusion hf, fun _ _ hf => MSeg.noConfusion hf⟩

theorem perSegWF_ri (frames : List MFrame) (n : Nat) : PerSegWF frames (.ri n) :=
  ⟨fun _ hf => MSeg.noConfusion hf, fun _ _ hf => MSeg.noConfusion hf⟩

theorem flatten_ser_append_frame {frames : List MFrame} {segs : List MSeg} (frm : MFrame)
    (hwf : ∀ seg ∈ segs, PerSegWF frames seg) :
    ((segs ++ [MSeg.frameRef frames.length]).map (serializeSeg (frames ++ [frm]))).flatten
      = (segs.map (serializeSeg frames)).flatten ++ serializeFrame frm := by
  rw [List.map_append, List.flatten_append]
  have h1 : segs.map (serializeSeg (frames ++ [frm])) = segs.map (serializeSeg frames) :=
    List.map_congr_left fun seg hseg => serializeSeg_append_frame (hwf seg hseg)
  rw [h1]
  congr 1
  simp only [List.map_cons, List.map_nil, List.flatten_cons, List.flatten_nil,
             List.append_nil, serializeSeg]
  rw [List.getD_eq_getElem?_getD, List.getElem?_concat_length]
  rfl

theorem flatten_ser_keep_frames (frames : List MFrame) (segs : List MSeg) (seg : MSeg) :
    ((segs ++ [seg]).map (serializeSeg frames)).flatten
      = (segs.map (serializeSeg frames)).flatten ++ serializeSeg frames seg := by
  rw [List.map_append, List.flatten_append]
  simp

theorem flatten_ser_add_scan {frames : List MFrame} {segs : List MSeg} {frm : MFrame} (sc : MScan)
    (hlast : frames.getLast? = some frm)
    (hwf : ∀ seg ∈ segs, PerSegWF frames seg) :
    ((segs ++ [MSeg.scanRef (frames.length - 1) frm.scans.length]).map
        (serializeSeg (frames.set (frames.length - 1)
          { frm with scans := frm.scans ++ [sc] }))).flatten
      = (segs.map (serializeSeg frames)).flatten ++ serializeScan sc := by
  rw [List.map_append, List.flatten_append]
  have h1 : segs.map (serializeSeg (frames.set (frames.length - 1)
        { frm with scans := frm.scans ++ [sc] }))
      = segs.map (serializeSeg frames) :=
    List.map_congr_left fun seg hseg => serializeSeg_set_scans hlast (hwf seg hseg)
  rw [h1]
  congr 1
  have hpos := getLast?_pos hlast
  simp only [List.map_cons, List.map_nil, List.flatten_cons, List.flatten_nil,
             List.append_nil, serializeSeg]
  rw [getD_set_self (by omega)]
  show serializeScan ((frm.scans ++ [sc]).getD frm.scans.length default) = serializeScan sc
  rw [List.getD_eq_getElem?_getD, List.getElem?_concat_length]
  rfl

set_option maxHeartbeats 1600000 in
theorem setScanCompFound_fields {st : MDesc} {frm : MFrame}
    {nComp startSS endSS : Nat} {r : Nat × Nat × Nat} {j : Nat} {cmp : MComponent}
    {sc : MScanComp}
    (h : setScanCompFound st frm nComp startSS endSS r j cmp = .ok sc)
    (hid : cmp.Id = r.1) :
    sc.cId = r.1 ∧ sc.dcId = r.2.1 ∧ sc.acId = r.2.2 := by
  unfold setScanCompFound at h
  split at h
  · exact Except.noConfusion h
  split at h
  · exact Except.noConfusion h
  split at h
  · exact Except.noConfusion h
  split at h
  · exact Except.noConfusion h
  split at h
  · exact Except.noConfusion h
  split at h
  · exact Except.noConfusion h
  split at h
  · exact Except.noConfusion h
  split at h
  · obtain rfl := (Except.ok.injEq _ _).mp h
    exact ⟨hid, rfl, rfl⟩
  split at h
  · exact Except.noConfusion h
  simp only [] at h
  split at h
  · exact Except.noConfusion h
  obtain rfl := (Except.ok.injEq _ _).mp h
  exact ⟨hid, rfl, rfl⟩

theorem setScanComp_fields {st : MDesc} {frm : MFrame} {nComp startSS endSS : Nat}
    {r : Nat × Nat × Nat} {sc : MScanComp}
    (h : setScanComp st frm nComp startSS endSS r = .ok sc) :
    sc.cId = r.1 ∧ sc.dcId = r.2.1 ∧ sc.acId = r.2.2 := by
  unfold setScanComp at h
  cases hg : (frm.components.enum.filter fun p => p.2.Id = r.1).getLast? with
  | none => rw [hg] at h; exact Except.noConfusion h
  | some jc =>
    rw [hg] at h
    obtain ⟨j, cmp⟩ := jc
    have h' : setScanCompFound st frm nComp startSS endSS r j cmp = .ok sc := h
    have hmem : (j, cmp) ∈ frm.components.enum.filter (fun p => p.2.Id = r.1) := by
      rw [List.getLast?_eq_getElem?] at hg
      exact List.getElem?_mem hg
    have hid : cmp.Id = r.1 := by
      have h2 := (List.mem_filter.mp hmem).2
      simpa using h2
    exact setScanCompFound_fields h' hid

theorem scanComps_obs {d : List Nat} (hbytes : ∀ b ∈ d, b < 256)
    {st : MDesc} {frm : MFrame} {nc ss es : Nat} :
    ∀ (n off : Nat) (refs : List (Nat × Nat × Nat)) (sComps : List MScanComp),
    scanCompRefs d off n = .ok refs →
    refs.mapM (setScanComp st frm nc ss es) = .ok sComps →
    sComps.length = n ∧
    (sComps.map scanCompSer).flatten = extract d off (off + 2 * n) ∧
    (n = 0 ∨ off + 2 * n ≤ d.length) := by
  intro n
  induction n with
  | zero =>
    intro off refs sComps h1 h2
    unfold scanCompRefs at h1
    obtain rfl := (Except.ok.injEq _ _).mp h1
    rw [List.mapM_nil] at h2
    obtain rfl := (Except.ok.injEq _ _).mp h2
    refine ⟨rfl, ?_, Or.inl rfl⟩
    rw [Nat.mul_zero, Nat.add_zero, extract_self]
    rfl
  | succ n ih =>
    intro off refs sComps h1 h2
    unfold scanCompRefs at h1
    obtain ⟨cmId, hh1, h1⟩ := bind_ok_elim h1
    obtain ⟨eIDs, hh2, h1⟩ := bind_ok_elim h1
    obtain ⟨rest, hh3, h1⟩ := bind_ok_elim h1
    obtain rfl := (Except.ok.injEq _ _).mp h1
    rw [List.mapM_cons] at h2
    obtain ⟨sc, hsc1, h2⟩ := bind_ok_elim h2
    obtain ⟨rest2, hsc2, h2⟩ := bind_ok_elim h2
    obtain rfl := (Except.ok.injEq _ _).mp h2
    obtain ⟨hc1, hc2, hc3⟩ := setScanComp_fields hsc1
    have hc1' : sc.cId = cmId := hc1
    have hc2' : sc.dcId = eIDs / 16 := hc2
    have hc3' : sc.acId = eIDs % 16 := hc3
    obtain ⟨hb1, he1⟩ := rd_ok_elim hh1
    obtain ⟨hb2, he2⟩ := rd_ok_elim hh2
    obtain ⟨ihlen, ihser, ihbnd⟩ := ih (off + 2) rest rest2 hh3 hsc2
    have hcm : cmId < 256 := he1 ▸ getD_lt_256 hbytes off
    have hei : eIDs < 256 := he2 ▸ getD_lt_256 hbytes (off + 1)
    refine ⟨by simp [ihlen], ?_, by omega⟩
    rw [show off + 2 * (n + 1) = off + 2 + 2 * n from by omega,
        extract_cons (by omega) hb1, extract_cons (by omega) hb2,
        show off + 1 + 1 = off + 2 from by omega]
    simp only [List.map_cons, List.flatten_cons]
    rw [ihser]
    rw [show scanCompSer sc = [u8 sc.cId, u8 (u8 (sc.dcId * 16) + sc.acId)] from rfl,
        hc1', hc2', hc3', u8_small hcm, u8_split_byte hei, he1, he2]
    rfl

set_option maxHeartbeats 1600000 in
theorem processScan_obs {d : List Nat} {st st2 : MDesc} {i sLen nIx : Nat}
    (hbytes : ∀ b ∈ d, b < 256)
    (hok : processScan d st i sLen = .ok (st2, nIx))
    (htidy : st.tidyUp = false)
    (hm : d.getD i 0 = 255) (hm1 : d.getD (i + 1) 0 = 218)
    (hlen : sLen = d.getD (i + 2) 0 * 256 + d.getD (i + 3) 0)
    (hwf : SegWF st)
    (hsb : segsBytes st = extract d 2 i) (hi2 : 2 ≤ i) :
    st2.tidyUp = false ∧ st2.state = MState.scanN ∧ SegWF st2 ∧
    segsBytes st2 = extract d 2 nIx ∧
    nIx = (scanSpanEnd d (d.length + 1) (i + sLen + 2) 0 0).1 ∧
    i + sLen + 2 ≤ nIx ∧ nIx ≤ d.length := by
  unfold processScan at hok
  split at hok
  · exact Except.noConfusion hok
  split at hok
  · exact Except.noConfusion hok
  cases hg : st.frames.getLast? with
  | none => rw [hg] at hok; exact Except.noConfusion hok
  | some frm =>
    rw [hg] at hok
    simp only [] at hok
    obtain ⟨nc, h1, hok⟩ := bind_ok_elim hok
    split at hok
    · exact Except.noConfusion hok
    rename_i hslen
    obtain ⟨refs, h2, hok⟩ := bind_ok_elim hok
    obtain ⟨ss, h3, hok⟩ := bind_ok_elim hok
    obtain ⟨es, h4, hok⟩ := bind_ok_elim hok
    obtain ⟨sabp, h5, hok⟩ := bind_ok_elim hok
    obtain ⟨sComps, h6, hok⟩ := bind_ok_elim hok
    obtain ⟨uu, h7, hok⟩ := bind_ok_elim hok
    rcases hspan : scanSpanEnd d (d.length + 1) (i + sLen + 2) 0 0 with
      ⟨nIxRaw, lastRST, rstCnt⟩
    rw [hspan] at hok
    simp only [] at hok
    rw [if_neg (by simp [htidy])] at hok
    obtain ⟨e1, e2⟩ := (Prod.mk.injEq _ _ _ _).mp ((Except.ok.injEq _ _).mp hok)
    subst e1
    subst e2
    obtain ⟨hb1, he1⟩ := rd_ok_elim h1
    have hsl : sLen = 6 + nc * 2 := by omega
    obtain ⟨hclen, hcser, hcbnd⟩ := scanComps_obs hbytes nc (i + 5) refs sComps h2 h6
    obtain ⟨hb3, he3⟩ := rd_ok_elim h3
    obtain ⟨hb4, he4⟩ := rd_ok_elim h4
    obtain ⟨hb5, he5⟩ := rd_ok_elim h5
    have hnc256 : nc < 256 := he1 ▸ getD_lt_256 hbytes (i + 4)
    have hss : ss < 256 := he3 ▸ getD_lt_256 hbytes (i + 5 + 2 * nc)
    have hes : es < 256 := he4 ▸ getD_lt_256 hbytes (i + 6 + 2 * nc)
    have hsabp : sabp < 256 := he5 ▸ getD_lt_256 hbytes (i + 7 + 2 * nc)
    have hg2 : d.getD (i + 2) 0 < 256 := getD_lt_256 hbytes (i + 2)
    have hg3 : d.getD (i + 3) 0 < 256 := getD_lt_256 hbytes (i + 3)
    have hfe_le : i + sLen + 2 ≤ d.length := by omega
    have hge0 := scanSpanEnd_ge d (d.length + 1) (i + sLen + 2) 0 0
    rw [hspan] at hge0
    have hge : i + sLen + 2 ≤ nIxRaw := hge0
    have hle0 := scanSpanEnd_le d (d.length + 1) (i + sLen + 2) 0 0 hfe_le
    rw [hspan] at hle0
    have hle : nIxRaw ≤ d.length := hle0
    have hserScan : serializeScan
        { ecss := extract d (i + sLen + 2) nIxRaw, nMcus := 0,
          rstInterval := st.nMcuRST, rstCount := rstCnt,
          startSS := ss, endSS := es,
          sABPh := sabp / 16, sABPl := sabp % 16, sComps := sComps }
        = extract d i nIxRaw := by
      simp only [serializeScan]
      rw [hclen,
          show u16 (nc * 2 + 6) = sLen from by
            rw [u16_small (by omega : nc * 2 + 6 < 65536)]
            omega,
          hlen, u16be_pair hg2 hg3, ← hlen, hcser,
          u8_small hnc256, u8_small hss, u8_small hes, u8_split_byte hsabp]
      rw [← extract_append_mid (show i ≤ i + 5 from by omega)
            (show i + 5 ≤ nIxRaw from by omega),
          ← extract_append_mid (show i + 5 ≤ i + 5 + 2 * nc from by omega)
            (show i + 5 + 2 * nc ≤ nIxRaw from by omega)]
      rw [extract_cons (show i < i + 5 from by omega) (show i < d.length from by omega),
          extract_cons (show i + 1 < i + 5 from by omega)
            (show i + 1 < d.length from by omega),
          show i + 1 + 1 = i + 2 from by omega,
          extract_cons (show i + 2 < i + 5 from by omega)
            (show i + 2 < d.length from by omega),
          show i + 2 + 1 = i + 3 from by omega,
          extract_cons (show i + 3 < i + 5 from by omega)
            (show i + 3 < d.length from by omega),
          show i + 3 + 1 = i + 4 from by omega,
          extract_cons (show i + 4 < i + 5 from by omega)
            (show i + 4 < d.length from by omega),
          show i + 4 + 1 = i + 5 from by omega,
          extract_self]
      rw [extract_cons (show i + 5 + 2 * nc < nIxRaw from by omega)
            (show i + 5 + 2 * nc < d.length from by omega),
          show i + 5 + 2 * nc + 1 = i + 6 + 2 * nc from by omega,
          extract_cons (show i + 6 + 2 * nc < nIxRaw from by omega)
            (show i + 6 + 2 * nc < d.length from by omega),
          show i + 6 + 2 * nc + 1 = i + 7 + 2 * nc from by omega,
          extract_cons (show i + 7 + 2 * nc < nIxRaw from by omega)
            (show i + 7 + 2 * nc < d.length from by omega),
          show i + 7 + 2 * nc + 1 = i + sLen + 2 from by omega]
      rw [hm, hm1, he1, he3, he4, he5]
      simp [u16be]
    refine ⟨htidy, rfl, ?_, ?_, rfl, by omega, by omega⟩
    · intro seg hseg
      rcases List.mem_append.mp hseg with hmem | hmem
      · exact perSegWF_set_scans hg (hwf seg hmem)
      · rw [List.mem_singleton] at hmem
        subst hmem
        exact perSegWF_new_scanRef _ hg
    · have hsb' : (st.segments.map (serializeSeg st.frames)).flatten = extract d 2 i := hsb
      simp only [segsBytes]
      rw [flatten_ser_add_scan _ hg hwf, hsb', hserScan,
          extract_append_mid hi2 (by omega)]

set_option maxHeartbeats 4000000 in
theorem parseLoop_obs {d : List Nat} (hbytes : ∀ b ∈ d, b < 256) :
    ∀ (fuel i : Nat) (st desc : MDesc),
    parseLoop d false fuel i st = .ok desc →
    canonLoop d fuel i = true →
    st.tidyUp = false → SegWF st → st.state ≠ MState.init →
    2 ≤ i → segsBytes st = extract d 2 i →
    segsBytes desc ++ [255, 217] = extract d 2 d.length := by
  intro fuel
  induction fuel with
  | zero =>
    intro i st desc hp hc _ _ _ _ _
    exact Bool.noConfusion hc
  | succ fuel ih =>
    intro i st desc hp hc htidy hwf hstate hi2 hsb
    have g0 := getD_lt_256 hbytes i
    have g1 := getD_lt_256 hbytes (i + 1)
    by_cases h1 : i + 1 < d.length
    case neg =>
      simp only [canonLoop] at hc
      rw [if_neg h1] at hc
      exact Bool.noConfusion hc
    case pos =>
    simp only [canonLoop] at hc
    rw [if_pos h1] at hc
    have hi0 : i < d.length := by omega
    simp only [parseLoop] at hp
    rw [if_pos hi0, rd_eq_ok hi0, rd_eq_ok h1] at hp
    simp only [except_bind_ok] at hp
    have hsb' : (st.segments.map (serializeSeg st.frames)).flatten = extract d 2 i := hsb
    by_cases hM8 : d.getD i 0 * 256 + d.getD (i + 1) 0 = 0xffd8
    case pos =>
      rw [if_neg (by omega), if_pos hM8, if_pos hstate] at hp
      exact Except.noConfusion hp
    case neg =>
    by_cases hM9 : d.getD i 0 * 256 + d.getD (i + 1) 0 = 0xffd9
    case pos =>
      rw [if_neg hM8, if_pos hM9] at hc
      have hend : i + 2 = d.length := by simpa using hc
      rw [if_neg (by omega), if_neg hM8, if_neg (by omega), if_pos hM9] at hp
      by_cases hstate2 : st.state ≠ MState.scan1 ∧ st.state ≠ MState.scanN
      · rw [if_pos hstate2] at hp
        exact Except.noConfusion hp
      · rw [if_neg hstate2, if_neg (by simp)] at hp
        obtain rfl := (Except.ok.injEq _ _).mp hp
        have hsbF : segsBytes { st with state := MState.final, offset := i + 2 }
            = extract d 2 i := hsb
        rw [hsbF]
        have hb255 : d.getD i 0 = 255 := by omega
        have hb217 : d.getD (i + 1) 0 = 217 := by omega
        rw [← extract_append_mid (show 2 ≤ i from hi2) (show i ≤ d.length from by omega)]
        congr 1
        rw [extract_cons (show i < d.length from hi0) hi0,
            extract_cons (show i + 1 < d.length from h1) h1,
            show i + 1 + 1 = d.length from by omega, extract_self,
            hb255, hb217]
    case neg =>
    by_cases h3 : i + 3 < d.length
    case neg =>
      rw [if_neg hM8, if_neg hM9, if_neg h3] at hc
      exact Bool.noConfusion hc
    case pos =>
    rw [if_neg hM8, if_neg hM9, if_pos h3] at hc
    have g2 := getD_lt_256 hbytes (i + 2)
    have g3 := getD_lt_256 hbytes (i + 3)
    have hkey : canonLoop d fuel (i + (d.getD (i + 2) 0 * 256 + d.getD (i + 3) 0) + 2) = true →
        ∀ stX : MDesc, stX.tidyUp = false → SegWF stX → stX.state ≠ MState.init →
        segsBytes stX = extract d 2 (i + (d.getD (i + 2) 0 * 256 + d.getD (i + 3) 0) + 2) →
        parseLoop d false fuel (i + (d.getD (i + 2) 0 * 256 + d.getD (i + 3) 0) + 2)
          { stX with offset := i + (d.getD (i + 2) 0 * 256 + d.getD (i + 3) 0) + 2 }
          = .ok desc →
        segsBytes desc ++ [255, 217] = extract d 2 d.length := by
      intro hcX stX ht hw hs hsbX hp2
      exact ih (i + (d.getD (i + 2) 0 * 256 + d.getD (i + 3) 0) + 2)
        { stX with offset := i + (d.getD (i + 2) 0 * 256 + d.getD (i + 3) 0) + 2 }
        desc hp2 hcX ht hw hs (by omega) hsbX
    by_cases hMda : d.getD i 0 * 256 + d.getD (i + 1) 0 = 0xffda
    case pos =>
      rw [if_pos hMda] at hc
      rw [if_neg (by omega), if_neg hM8, if_neg (by omega), if_neg hM9,
          rd_eq_ok (show i + 2 < d.length from by omega),
          rd_eq_ok (show i + 3 < d.length from by omega)] at hp
      simp only [except_bind_ok] at hp
      rw [if_pos hMda] at hp
      obtain ⟨r, hr, hp⟩ := bind_ok_elim hp
      obtain ⟨st2, nIx⟩ := r
      have hmA : d.getD i 0 = 255 := by omega
      have hmB : d.getD (i + 1) 0 = 218 := by omega
      obtain ⟨ht2, hs2, hw2, hsb2, hnix, hge2, hle2⟩ :=
        processScan_obs hbytes hr htidy hmA hmB rfl hwf hsb hi2
      rw [← hnix] at hc
      have hp' : parseLoop d false fuel nIx st2 = Except.ok desc := hp
      exact ih nIx st2 desc hp' hc ht2 hw2
        (by rw [hs2]; exact fun hh => MState.noConfusion hh) (by omega) hsb2
    case neg =>
    by_cases hMsof : isSOFmarker (d.getD i 0 * 256 + d.getD (i + 1) 0) = true
    case pos =>
      rw [if_neg hMda, if_pos hMsof] at hc
      rw [Bool.and_eq_true] at hc
      obtain ⟨hcl, hc⟩ := hc
      have hcanonLen : d.getD (i + 2) 0 * 256 + d.getD (i + 3) 0
          = 8 + 3 * d.getD (i + 9) 0 := by simpa using hcl
      unfold isSOFmarker at hMsof
      rw [decide_eq_true_eq] at hMsof
      obtain ⟨hlo, hhi, hn4, hn8, hnc⟩ := hMsof
      rw [if_neg (by omega), if_neg hM8, if_neg (by omega), if_neg hM9,
          rd_eq_ok (show i + 2 < d.length from by omega),
          rd_eq_ok (show i + 3 < d.length from by omega)] at hp
      simp only [except_bind_ok] at hp
      rw [if_neg hMda, if_neg (by omega), if_neg (by omega),
          if_pos (show isSOFmarker (d.getD i 0 * 256 + d.getD (i + 1) 0) = true from by
            unfold isSOFmarker
            rw [decide_eq_true_eq]
            exact ⟨hlo, hhi, hn4, hn8, hnc⟩)] at hp
      obtain ⟨st', hsof, hp⟩ := bind_ok_elim hp
      obtain ⟨frm, hrec, hser, hbnd⟩ :=
        startOfFrame_obs hbytes hsof rfl hlo hhi rfl hcanonLen
      subst hrec
      have hwfX : SegWF
          { st with
              frames := st.frames ++ [frm],
              segments := st.segments ++ [.frameRef st.frames.length],
              state := MState.scan1 } := by
        intro seg hseg
        rcases List.mem_append.mp hseg with hmem | hmem
        · exact perSegWF_append_frame (hwf seg hmem)
        · rw [List.mem_singleton] at hmem
          subst hmem
          exact perSegWF_new_frameRef _ _
      have hsbX : segsBytes
          { st with
              frames := st.frames ++ [frm],
              segments := st.segments ++ [.frameRef st.frames.length],
              state := MState.scan1 }
          = extract d 2 (i + (d.getD (i + 2) 0 * 256 + d.getD (i + 3) 0) + 2) := by
        simp only [segsBytes]
        rw [flatten_ser_append_frame frm hwf, hsb', hser,
            extract_append_mid hi2 (by omega)]
      refine hkey hc _ ?_ ?_ ?_ ?_ hp
      · split <;> exact htidy
      · split <;> exact hwfX
      · split <;> exact fun hh => MState.noConfusion hh
      · split <;> exact hsbX
    case neg =>
    by_cases hMtb : d.getD i 0 * 256 + d.getD (i + 1) 0 = 0xffc4 ∨
        d.getD i 0 * 256 + d.getD (i + 1) 0 = 0xffdb
    case pos =>
      rw [if_neg hMda, if_neg hMsof, if_pos hMtb] at hc
      rcases hMtb with hc4 | hdb
      · rw [if_neg (by omega), if_neg hM8, if_neg (by omega), if_neg hM9,
            rd_eq_ok (show i + 2 < d.length from by omega),
            rd_eq_ok (show i + 3 < d.length from by omega)] at hp
        simp only [except_bind_ok] at hp
        rw [if_neg hMda, if_neg (by omega), if_neg (by omega),
            if_neg (show ¬isSOFmarker (d.getD i 0 * 256 + d.getD (i + 1) 0) = true from by
              rw [hc4]; decide),
            if_pos hc4] at hp
        obtain ⟨st', hdht, hp⟩ := bind_ok_elim hp
        have hmA : d.getD i 0 = 255 := by omega
        have hmB : d.getD (i + 1) 0 = 196 := by omega
        obtain ⟨tables, hdefs2, hrec, hser, hbnd⟩ := dht_obs hbytes hdht hmA hmB rfl
        subst hrec
        have hwfX : SegWF
            { st with
                hdefs := hdefs2,
                segments := st.segments ++ [.ht tables] } := by
          intro seg hseg
          rcases List.mem_append.mp hseg with hmem | hmem
          · exact hwf seg hmem
          · rw [List.mem_singleton] at hmem
            subst hmem
            exact perSegWF_ht _ _
        have hser' : serializeSeg st.frames (.ht tables)
            = extract d i (i + (d.getD (i + 2) 0 * 256 + d.getD (i + 3) 0) + 2) := hser
        have hsbX : segsBytes
            { st with
                hdefs := hdefs2,
                segments := st.segments ++ [.ht tables] }
            = extract d 2 (i + (d.getD (i + 2) 0 * 256 + d.getD (i + 3) 0) + 2) := by
          simp only [segsBytes]
          rw [flatten_ser_keep_frames, hsb', hser',
              extract_append_mid hi2 (by omega)]
        refine hkey hc _ ?_ ?_ ?_ ?_ hp
        · split <;> exact htidy
        · split <;> exact hwfX
        · split
          · exact fun hh => MState.noConfusion hh
          · exact hstate
        · split <;> exact hsbX
      · rw [if_neg (by omega), if_neg hM8, if_neg (by omega), if_neg hM9,
            rd_eq_ok (show i + 2 < d.length from by omega),
            rd_eq_ok (show i + 3 < d.length from by omega)] at hp
        simp only [except_bind_ok] at hp
        rw [if_neg hMda, if_neg (by omega), if_neg (by omega),
            if_neg (show ¬isSOFmarker (d.getD i 0 * 256 + d.getD (i + 1) 0) = true from by
              rw [hdb]; decide),
            if_neg (by omega), if_pos hdb] at hp
        obtain ⟨st', hdqt, hp⟩ := bind_ok_elim hp
        have hmA : d.getD i 0 = 255 := by omega
        have hmB : d.getD (i + 1) 0 = 219 := by omega
        obtain ⟨tables, qdefs2, hrec, hser, hbnd⟩ := dqt_obs hbytes hdqt hmA hmB rfl
        subst hrec
        have hwfX : SegWF
            { st with
                qdefs := qdefs2,
                segments := st.segments ++ [.qt tables] } := by
          intro seg hseg
          rcases List.mem_append.mp hseg with hmem | hmem
          · exact hwf seg hmem
          · rw [List.mem_singleton] at hmem
            subst hmem
            exact perSegWF_qt _ _
        have hser' : serializeSeg st.frames (.qt tables)
            = extract d i (i + (d.getD (i + 2) 0 * 256 + d.getD (i + 3) 0) + 2) := hser
        have hsbX : segsBytes
            { st with
                qdefs := qdefs2,
                segments := st.segments ++ [.qt tables] }
            = extract d 2 (i + (d.getD (i + 2) 0 * 256 + d.getD (i + 3) 0) + 2) := by
          simp only [segsBytes]
          rw [flatten_ser_keep_frames, hsb', hser',
              extract_append_mid hi2 (by omega)]
        refine hkey hc _ ?_ ?_ ?_ ?_ hp
        · split <;> exact htidy
        · split <;> exact hwfX
        · split
          · exact fun hh => MState.noConfusion hh
          · exact hstate
        · split <;> exact hsbX
    case neg =>
    by_cases hMdd : d.getD i 0 * 256 + d.getD (i + 1) 0 = 0xffdd
    case pos =>
      rw [if_neg hMda, if_neg hMsof, if_neg hMtb, if_pos hMdd] at hc
      rw [Bool.and_eq_true] at hc
      obtain ⟨hcl, hc⟩ := hc
      have hsl4 : d.getD (i + 2) 0 * 256 + d.getD (i + 3) 0 = 4 := by
        simpa using hcl
      have hb2z : d.getD (i + 2) 0 = 0 := by omega
      have hb3f : d.getD (i + 3) 0 = 4 := by omega
      rw [if_neg (by omega), if_neg hM8, if_neg (by omega), if_neg hM9,
          rd_eq_ok (show i + 2 < d.length from by omega),
          rd_eq_ok (show i + 3 < d.length from by omega)] at hp
      simp only [except_bind_ok] at hp
      rw [if_neg hMda, if_neg (by omega), if_neg (by omega),
          if_neg (show ¬isSOFmarker (d.getD i 0 * 256 + d.getD (i + 1) 0) = true from by
            rw [hMdd]; decide),
          if_neg (by omega), if_neg (by omega), if_neg (by omega), if_neg (by omega),
          if_pos hMdd] at hp
      obtain ⟨st', hdri, hp⟩ := bind_ok_elim hp
      have hmA : d.getD i 0 = 255 := by omega
      have hmB : d.getD (i + 1) 0 = 221 := by omega
      obtain ⟨interval, hrec, hser, hbnd⟩ := dri_obs hbytes hdri hmA hmB hb2z hb3f
      subst hrec
      have h46 : i + (d.getD (i + 2) 0 * 256 + d.getD (i + 3) 0) + 2 = i + 6 := by omega
      have hwfX : SegWF
          { st with
              nMcuRST := interval,
              segments := st.segments ++ [.ri interval] } := by
        intro seg hseg
        rcases List.mem_append.mp hseg with hmem | hmem
        · exact hwf seg hmem
        · rw [List.mem_singleton] at hmem
          subst hmem
          exact perSegWF_ri _ _
      have hser' : serializeSeg st.frames (.ri interval)
          = extract d i (i + (d.getD (i + 2) 0 * 256 + d.getD (i + 3) 0) + 2) := by
        rw [h46]
        exact hser
      have hsbX : segsBytes
          { st with
              nMcuRST := interval,
              segments := st.segments ++ [.ri interval] }
          = extract d 2 (i + (d.getD (i + 2) 0 * 256 + d.getD (i + 3) 0) + 2) := by
        simp only [segsBytes]
        rw [flatten_ser_keep_frames, hsb', hser',
            extract_append_mid hi2 (by omega)]
      refine hkey hc _ ?_ ?_ ?_ ?_ hp
      · split <;> exact htidy
      · split <;> exact hwfX
      · split
        · exact fun hh => MState.noConfusion hh
        · exact hstate
      · split <;> exact hsbX
    case neg =>
      rw [if_neg hMda, if_neg hMsof, if_neg hMtb, if_neg hMdd] at hc
      exact Bool.noConfusion hc

/-- A syntactically well-formed JPEG that `Parse` accepts as complete but
whose SOF segment declares a padded length (12 instead of the canonical
8 + 3·1 = 11): the extra byte is parsed over but `frame.serialize`
re-emits the canonical length, so serialization is not the identity. -/
def c1BadInput : List Nat :=
  [255, 216, 255, 192, 0, 12, 8, 0, 8, 0, 8, 1, 1, 17, 0, 0, 255, 217]

def c1BadDesc : MDesc := (Parse c1BadInput false).toOption.getD (initDesc false)

/-- C1 counterexample: with tidy-up disabled (so no tidy-up correction
can fire), `Parse` accepts `c1BadInput` as a complete JPEG, yet
serializing the resulting model does not reproduce the input byte for
byte - the claim's round-trip fails on padded-but-accepted segment
lengths (and likewise on COM, APPn and DNL segments). -/
theorem claim_C1_counterexample :
    (Parse c1BadInput false).isOk = true ∧
    IsComplete c1BadDesc = true ∧
    serializeDesc c1BadDesc ≠ c1BadInput := by
  decide

/-- C1 (amended): the round-trip `serialize (parse I) = I` holds for
every byte sequence (entries < 256) that `Parse` accepts as a complete
JPEG with tidy-up disabled AND that is canonical in the sense of
`canonicalBytes`: no COM, DNL or APPn segments, SOF and DRI declared
lengths exactly canonical, and EOI at the very end of the buffer.  On
such inputs every stored segment serializes to exactly the byte span it
was parsed from, and SOI, the segments and EOI reassemble the input. -/
theorem claim_C1_roundtrip (d : List Nat) (desc : MDesc)
    (hparse : Parse d false = .ok desc) (hcomplete : IsComplete desc = true)
    (hcanon : canonicalBytes d = true) (hbytes : ∀ b ∈ d, b < 256) :
    serializeDesc desc = d := by
  unfold Parse at hparse
  split at hparse
  · exact Except.noConfusion hparse
  split at hparse
  · exact Except.noConfusion hparse
  rename_i hlen2 hsig
  have hsig' : d.getD 0 0 = 255 ∧ d.getD 1 0 = 216 := not_not.mp hsig
  have hL2 : 2 ≤ d.length := by omega
  unfold canonicalBytes at hcanon
  simp only [canonLoop] at hcanon
  rw [if_pos (show 0 + 1 < d.length from by omega),
      show (0 : Nat) + 1 = 1 from rfl,
      if_pos (show d.getD 0 0 * 256 + d.getD 1 0 = 0xffd8 from by
        rw [hsig'.1, hsig'.2]),
      show (0 : Nat) + 2 = 2 from rfl] at hcanon
  simp only [parseLoop] at hparse
  rw [if_pos (show (0 : Nat) < d.length from by omega),
      rd_eq_ok (show (0 : Nat) < d.length from by omega),
      rd_eq_ok (show (0 : Nat) + 1 < d.length from by omega)] at hparse
  simp only [except_bind_ok] at hparse
  rw [show (0 : Nat) + 1 = 1 from rfl] at hparse
  have hM : d.getD 0 0 * 256 + d.getD 1 0 = 0xffd8 := by rw [hsig'.1, hsig'.2]
  rw [if_neg (by omega), if_pos hM,
      if_neg (show ¬(initDesc false).state ≠ MState.init from by simp [initDesc]),
      show (0 : Nat) + 2 = 2 from rfl] at hparse
  have hfinal : segsBytes desc ++ [255, 217] = extract d 2 d.length :=
    parseLoop_obs hbytes d.length 2 _ desc hparse hcanon rfl
      (fun seg hseg => absurd hseg (List.not_mem_nil seg))
      (fun hh => MState.noConfusion hh) (le_refl 2) (extract_self d 2).symm
  have h02 : extract d 0 2 ++ extract d 2 d.length = extract d 0 d.length :=
    extract_append_mid (by omega) (by omega)
  have h02' : extract d 0 2 = [255, 216] := by
    rw [extract_cons (by omega) (by omega), extract_cons (by omega) (by omega),
        show (0 : Nat) + 1 = 1 from rfl, show (1 : Nat) + 1 = 2 from rfl, extract_self,
        hsig'.1, hsig'.2]
  have hd : d = [255, 216] ++ extract d 2 d.length := by
    rw [← h02', h02, extract_zero_length]
  calc serializeDesc desc
      = [255, 216] ++ (segsBytes desc ++ [255, 217]) := by
        show [255, 216] ++ segsBytes desc ++ [255, 217] = _
        rw [List.append_assoc]
    _ = [255, 216] ++ extract d 2 d.length := by rw [hfinal]
    _ = d := hd.symm

/-- A canonical baseline JPEG: DQT, DHT, SOF0 and a small scan, EOI at
the end.  `Parse` accepts it as complete and the round-trip applies. -/
def c1GoodInput : List Nat :=
  [255, 216] ++
  [255, 219, 0, 67, 0] ++ List.replicate 64 1 ++
  [255, 196, 0, 20, 0, 1] ++ List.replicate 15 0 ++ [5] ++
  [255, 192, 0, 11, 8, 0, 8, 0, 8, 1, 1, 17, 0] ++
  [255, 218, 0, 8, 1, 1, 0, 0, 0, 0] ++ [18, 52] ++
  [255, 217]

def c1GoodDesc : MDesc := (Parse c1GoodInput false).toOption.getD (initDesc false)

set_option maxRecDepth 100000 in
/-- Witness for the amended C1 round-trip at a concrete accepted,
canonical input. -/
theorem claim_C1_roundtrip_witness : serializeDesc c1GoodDesc = c1GoodInput :=
  claim_C1_roundtrip c1GoodInput c1GoodDesc (by decide) (by decide) (by decide)
    (by decide)

end Jpeg
